import Mathlib

/-!
Verification development for the pydocusign library (DocuSign client).

We give a shallow embedding of the parts of the code the specification
claims are about:

* `pydocusign/parser.py` — `DocuSignCallbackParser` over an XML tree model
  mirroring the BeautifulSoup accessors the code uses (`find` recursive and
  non-recursive, `.string`, `.children`), and a model of the
  `dateutil.parser.parse` behaviour on the composite strings the code
  builds (`'{datetime}{offset}'.format(...)`).
* `pydocusign/models.py` — `to_dict` serialization of Tab/Signer/Role/
  Document/EventNotification/Envelope into a Python-value model, and
  `Envelope.get_recipients` reconciliation.
* `pydocusign/client.py` — `_create_envelope_from_documents_request`
  document encoding over a byte-stream model.

Machine integers do not overflow in any of the modelled code paths
(Python ints are unbounded), so `Nat`/`Int` are used directly.
-/

deriving instance DecidableEq for Except

/-- Model of a Python exception raised by the modelled code paths.
`attributeError` stands for `AttributeError` raised by attribute access on
`None` (or on a `NavigableString`): it carries no information about which
XML field was missing.  `valueError` carries the message string of a
`ValueError`.  `typeError` stands for `TypeError` (e.g. `int(None)`). -/
inductive PyErr where
  | attributeError
  | valueError (msg : String)
  | typeError
deriving Repr, DecidableEq

/-- Model of a Python value as produced by the `to_dict` serializers:
`None`, strings, ints, booleans, lists and dicts (as association lists in
insertion order; CPython 2 dicts are unordered, so only key membership and
values are meaningful, which is all the claims use). -/
inductive PyVal where
  | pnone
  | pstr (s : String)
  | pint (n : Int)
  | pbool (b : Bool)
  | plist (xs : List PyVal)
  | pdict (kvs : List (String × PyVal))

/-- Association-list lookup, first binding wins (Python dict key lookup). -/
def lookupKV (k : String) : List (String × PyVal) → Option PyVal
  | [] => none
  | (k2, v) :: rest => if k2 = k then some v else lookupKV k rest

/-- Dict lookup on a `PyVal`; `none` when the key is absent or the value is
not a dict. -/
def dlookup (k : String) : PyVal → Option PyVal
  | .pdict kvs => lookupKV k kvs
  | _ => none

/-- Python truthiness of an optional string attribute (`None` and the empty
string are falsy). -/
def truthyO : Option String → Bool
  | none => false
  | some s => s ≠ ""

/-- Decimal digit character (total; arguments ≥ 9 map to `'9'`, which never
happens for the `< 10` arguments we use). -/
def digitChar (n : Nat) : Char :=
  if n = 0 then '0' else if n = 1 then '1' else if n = 2 then '2'
  else if n = 3 then '3' else if n = 4 then '4' else if n = 5 then '5'
  else if n = 6 then '6' else if n = 7 then '7' else if n = 8 then '8'
  else '9'

/-- ASCII decimal-digit test. -/
def isDigitB (c : Char) : Bool := 48 ≤ c.toNat && c.toNat ≤ 57

/-- Numeric value of an ASCII digit character. -/
def digitVal (c : Char) : Nat := c.toNat - 48

/-- Value of a list of decimal digit characters, most significant first. -/
def digitsVal (ds : List Char) : Nat := ds.foldl (fun a c => a * 10 + digitVal c) 0

/-- Worker for `natDigits`: structural recursion on a fuel argument (the
fuel `n + 1` always suffices since `n / 10 < n` for `n ≥ 10`). -/
def natDigitsAux : Nat → Nat → List Char
  | 0, _ => []
  | fuel + 1, n =>
    if n < 10 then [digitChar n]
    else natDigitsAux fuel (n / 10) ++ [digitChar (n % 10)]

/-- Decimal digit characters of a natural number, as Python `str` renders
it (no sign, no leading zeros, `0 ↦ "0"`). -/
def natDigits (n : Nat) : List Char := natDigitsAux (n + 1) n

/-- Python `str` of an int (also what `'{0}'.format(n)` produces): a `'-'`
sign for negative numbers and no sign otherwise. -/
def pyIntStr (n : Int) : String :=
  if n < 0 then String.mk ('-' :: natDigits n.natAbs) else String.mk (natDigits n.toNat)

/-- ASCII whitespace test (the characters Python `int(str)` strips). -/
def isSpaceB (c : Char) : Bool := c = ' ' || c = '\t' || c = '\n' || c = '\r'

/-- Python `int(s)` on a string: strips surrounding whitespace, accepts an
optional sign followed by one or more decimal digits, raises `ValueError`
otherwise. -/
def pyIntOfString (s : String) : Except PyErr Int :=
  let t := (((s.data.dropWhile isSpaceB).reverse.dropWhile isSpaceB).reverse)
  let (sgn, ds) : Int × List Char :=
    match t with
    | '-' :: rest => (-1, rest)
    | '+' :: rest => (1, rest)
    | _ => (1, t)
  if ds ≠ [] ∧ ds.all isDigitB then .ok (sgn * digitsVal ds)
  else .error (.valueError ("invalid literal for int() with base 10: " ++ s))

/-- A Python `datetime.datetime` value: components plus an optional fixed
UTC offset in seconds (`none` models a naive datetime). -/
structure PyDatetime where
  year : Nat
  month : Nat
  day : Nat
  hour : Nat
  minute : Nat
  second : Nat
  microsecond : Nat
  tz : Option Int
deriving Repr, DecidableEq

/-- Leap-year rule used by `datetime.date` validity. -/
def isLeap (y : Nat) : Bool := (y % 4 == 0 && y % 100 != 0) || y % 400 == 0

/-- Days in a month, as validated by the `datetime` constructor. -/
def daysInMonth (y m : Nat) : Nat :=
  if m = 2 then (if isLeap y then 29 else 28)
  else if m = 4 ∨ m = 6 ∨ m = 9 ∨ m = 11 then 30 else 31

/-- Leading run of decimal digits and the rest (one token of the
`dateutil` lexer, which groups consecutive digits — and a digit run on
both sides of a single dot — into one number token). -/
def spanDigits (cs : List Char) : List Char × List Char :=
  (cs.takeWhile isDigitB, cs.dropWhile isDigitB)

/-- Microseconds from the fraction digits of a seconds token, as
`dateutil`'s `_parsems` computes them: `int(f.ljust(6, '0')[:6])` — pad the
digit string on the right to six characters, keep the first six. -/
def fracMicros (fds : List Char) : Nat :=
  digitsVal ((fds ++ List.replicate (6 - fds.length) '0').take 6)

/-- Timezone suffix of the composite string, as `dateutil` reads it: a
sign followed by either four digits (`±HHMM`) or one or two digits
(hours); anything else fails.  Result in seconds. -/
def parseTz (cs : List Char) : Option Int :=
  match cs with
  | [] => none
  | sgn :: rest =>
    let sg : Int := if sgn = '-' then -1 else 1
    if sgn = '-' ∨ sgn = '+' then
      match spanDigits rest with
      | (ods, []) =>
        if ods.length = 4 then
          some (sg * ((digitsVal (ods.take 2)) * 3600 + (digitsVal (ods.drop 2)) * 60))
        else if 1 ≤ ods.length ∧ ods.length ≤ 2 then
          some (sg * (digitsVal ods) * 3600)
        else none
      | _ => none
    else none

/-- Range validation performed by the `datetime.datetime` constructor, and
assembly of the parsed components.  A four-digit year token is required
(that is how `dateutil` recognises the leading token as a year). -/
def mkDatetime (yds mds dds hds mids sds fds : List Char) (tz : Option Int) :
    Option PyDatetime :=
  if yds.length = 4 ∧ mds ≠ [] ∧ dds ≠ [] ∧ hds ≠ [] ∧ mids ≠ [] ∧ sds ≠ [] then
    let y := digitsVal yds
    let mo := digitsVal mds
    let d := digitsVal dds
    let h := digitsVal hds
    let mi := digitsVal mids
    let s := digitsVal sds
    if 1 ≤ y ∧ 1 ≤ mo ∧ mo ≤ 12 ∧ 1 ≤ d ∧ d ≤ daysInMonth y mo ∧ h ≤ 23 ∧ mi ≤ 59 ∧ s ≤ 59
    then some ⟨y, mo, d, h, mi, s, fracMicros fds, tz⟩
    else none
  else none

/-- Stage 8 of the composite-string parse: optional timezone suffix. -/
def step8 (yds mds dds hds mids sds fds : List Char) (r : List Char) :
    Option PyDatetime :=
  match r with
  | [] => mkDatetime yds mds dds hds mids sds fds none
  | _ =>
    match parseTz r with
    | some off => mkDatetime yds mds dds hds mids sds fds (some off)
    | none => none

/-- Stage 7: optional fractional-seconds digits after a dot. -/
def step7 (yds mds dds hds mids : List Char) : List Char × List Char → Option PyDatetime
  | (sds, '.' :: rf) =>
    match spanDigits rf with
    | (fds, r) => step8 yds mds dds hds mids sds fds r
  | (sds, r) => step8 yds mds dds hds mids sds [] r

/-- Stage 6: seconds digits after the second colon. -/
def step6 (yds mds dds hds : List Char) : List Char × List Char → Option PyDatetime
  | (mids, ':' :: r) => step7 yds mds dds hds mids (spanDigits r)
  | _ => none

/-- Stage 5: minutes digits after the first colon. -/
def step5 (yds mds dds : List Char) : List Char × List Char → Option PyDatetime
  | (hds, ':' :: r) => step6 yds mds dds hds (spanDigits r)
  | _ => none

/-- Stage 4: hours digits after the date/time separator `T`. -/
def step4 (yds mds : List Char) : List Char × List Char → Option PyDatetime
  | (dds, 'T' :: r) => step5 yds mds dds (spanDigits r)
  | _ => none

/-- Stage 3: day digits after the second dash. -/
def step3 (yds : List Char) : List Char × List Char → Option PyDatetime
  | (mds, '-' :: r) => step4 yds mds (spanDigits r)
  | _ => none

/-- Stage 2: month digits after the first dash. -/
def step2 : List Char × List Char → Option PyDatetime
  | (yds, '-' :: r) => step3 yds (spanDigits r)
  | _ => none

/-- Model of `dateutil.parser.parse` restricted to the composite strings
built by `DocuSignCallbackParser.datetime`:
`DIGITS '-' DIGITS '-' DIGITS 'T' DIGITS ':' DIGITS ':' DIGITS
['.' DIGITS] [SIGN DIGITS]`.  Since the code appends `str(offset)` to the
raw value, a non-negative offset has no sign and its digits are absorbed
by the digit run of the seconds or fraction token; only a leading `-`
(or `+`) after the time starts a timezone token.  `none` models the
`ValueError`/`OverflowError` raised on strings outside this shape or with
out-of-range components. -/
def dateutilParse (s : String) : Option PyDatetime :=
  step2 (spanDigits s.data)

/-- `DocuSignCallbackParser.datetime` on an already-known timezone offset:
`value = '{datetime}{offset}'.format(...)` then `dateutil.parser.parse`.
The full method (which reads the offset from the document) is defined
later as `parserDatetime`. -/
def formatAndParse (offset : Int) (value : String) : Option PyDatetime :=
  dateutilParse (value ++ pyIntStr offset)

mutual

/-- XML tree model: an element with a name and children (elements and text
nodes interleaved, as BeautifulSoup's `.children` yields them), or a text
node (bs4 `NavigableString`).  The child list is a dedicated mutual
inductive so that the tree-walking functions below are structurally
recursive (and hence evaluate inside the kernel). -/
inductive Xml where
  | elem (name : String) (children : XmlList)
  | text (s : String)
deriving DecidableEq

/-- Children of an XML element. -/
inductive XmlList where
  | nil
  | cons (hd : Xml) (tl : XmlList)
deriving DecidableEq

end

/-- Convert a child list to an ordinary list. -/
def XmlList.toList : XmlList → List Xml
  | .nil => []
  | .cons t ts => t :: ts.toList

/-- Build a child list from an ordinary list (used to write documents). -/
def xlist : List Xml → XmlList
  | [] => .nil
  | t :: ts => .cons t (xlist ts)

/-- Direct children of a node (`Tag.children`; a `NavigableString` has
none — attribute access on it raises `AttributeError`, handled at use
sites). -/
def childrenOf : Xml → List Xml
  | .elem _ cs => cs.toList
  | .text _ => []

mutual

/-- bs4 recursive `find` (also attribute access `tag.Name`): first
descendant element with the given name, in document order (depth-first,
pre-order), not including the node itself. -/
def findRecT (name : String) : Xml → Option Xml
  | .text _ => none
  | .elem _ cs => findRecL name cs

/-- Recursive find over a list of sibling nodes: each element is checked
itself, then its subtree, before moving to the next sibling. -/
def findRecL (name : String) : XmlList → Option Xml
  | .nil => none
  | .cons (.text _) ts => findRecL name ts
  | .cons (.elem n cs) ts =>
    if n = name then some (.elem n cs)
    else
      match findRecL name cs with
      | some r => some r
      | none => findRecL name ts
termination_by structural ts => ts

end

/-- Find from the soup root (`self.xml_soup.Name`): the document's root
element itself is part of the search space. -/
def findRecTop (name : String) (doc : Xml) : Option Xml :=
  findRecL name (.cons doc .nil)

/-- Is this node an element with the given name? -/
def tagNameIs (name : String) : Xml → Bool
  | .elem n _ => n = name
  | .text _ => false

/-- bs4 `find(name, recursive=False)`: first direct child element with the
given name. -/
def findDirect (name : String) (t : Xml) : Option Xml :=
  (childrenOf t).find? (tagNameIs name)

mutual

/-- bs4 `.string`: a text node is its own string; an element with exactly
one child defers to that child; any other element (zero or several
children) has string `None`. -/
def xmlString? : Xml → Option String
  | .text s => some s
  | .elem _ cs => xmlStringL cs
termination_by structural t => t

/-- Helper for `xmlString?` on a child list: defined only for a singleton
child. -/
def xmlStringL : XmlList → Option String
  | .cons c .nil => xmlString? c
  | _ => none
termination_by structural cs => cs

end

/-- Specification-side predicate: the tree contains (at itself or in its
subtree) an element with the given name. -/
inductive HasTag (name : String) : Xml → Prop where
  | here (cs : XmlList) : HasTag name (.elem name cs)
  | child (n : String) (cs : XmlList) (t : Xml) :
      t ∈ cs.toList → HasTag name t → HasTag name (.elem n cs)

/-- Python `str.title()` on the identifiers the parser passes it: the
first letter of each alphabetic run is uppercased and the rest of the run
lowercased. -/
def pyTitleGo : Bool → List Char → List Char
  | _, [] => []
  | prev, c :: cs =>
    (if c.isAlpha then (if prev then c.toLower else c.toUpper) else c) :: pyTitleGo c.isAlpha cs

/-- Python `str.title()`. -/
def pyTitle (s : String) : String := String.mk (pyTitleGo false s.data)

/-- `pydocusign.Envelope.STATUS_LIST` (`models.py`): note `Draft` is not a
member. -/
def ENVELOPE_STATUS_LIST : List String :=
  ["Created", "Sent", "Delivered", "Completed", "Declined", "Voided"]

/-- `pydocusign.Recipient.STATUS_LIST` (`models.py`). -/
def RECIPIENT_STATUS_LIST : List String :=
  ["AuthenticationFailed", "AutoResponded", "Signed", "Completed", "Declined",
   "Delivered", "Sent"]

/-- `DocuSignCallbackParser.timezone_offset`:
`int(self.xml_soup.TimeZoneOffset.string)`.  A missing `TimeZoneOffset`
node makes the attribute access return `None` and `.string` raise a bare
`AttributeError`; a node whose `.string` is `None` makes `int(None)` raise
`TypeError`; a non-integer string makes `int` raise `ValueError`. -/
def timezone_offset (doc : Xml) : Except PyErr Int :=
  match findRecTop "TimeZoneOffset" doc with
  | none => .error .attributeError
  | some t =>
    match xmlString? t with
    | none => .error .typeError
    | some s => pyIntOfString s

/-- `DocuSignCallbackParser.envelope_status`:
`self.xml_soup.EnvelopeStatus.Status.string`, `ValueError` when the string
is `None` or not in `Envelope.STATUS_LIST`; a missing `EnvelopeStatus` or
`Status` node raises a bare `AttributeError` from the `None` access. -/
def envelope_status (doc : Xml) : Except PyErr String :=
  match findRecTop "EnvelopeStatus" doc with
  | none => .error .attributeError
  | some es =>
    match findRecT "Status" es with
    | none => .error .attributeError
    | some st =>
      match xmlString? st with
      | none => .error (.valueError "Could not read envelope status from XML.")
      | some s =>
        if s ∈ ENVELOPE_STATUS_LIST then .ok s
        else .error (.valueError ("Unknown status " ++ s))

/-- `DocuSignCallbackParser.datetime(value)`: format
`'{datetime}{offset}'` (Python renders `None` as `"None"` and a negative
int with a `'-'` sign, a non-negative one without) and run
`dateutil.parser.parse` on the result.  The offset is re-read from the
document on every call. -/
def parserDatetime (doc : Xml) (value : Option String) : Except PyErr PyDatetime := do
  let off ← timezone_offset doc
  match formatAndParse off (value.getD "None") with
  | some dt => .ok dt
  | none => .error (.valueError "unknown string format")

/-- `DocuSignCallbackParser.envelope_status_datetime(status)`: non-recursive
find of the title-cased status name directly under the `EnvelopeStatus`
node; absent child means `None`. -/
def envelope_status_datetime (doc : Xml) (status : String) :
    Except PyErr (Option PyDatetime) :=
  match findRecTop "EnvelopeStatus" doc with
  | none => .error .attributeError
  | some es =>
    match findDirect (pyTitle status) es with
    | some st => (parserDatetime doc (xmlString? st)).map some
    | none => .ok none

/-- Loop body of `DocuSignCallbackParser.recipient_status_datetime`: scan
the direct children of `RecipientStatuses` in document order; skip nodes
whose `ClientUserId` access raises `AttributeError` (text nodes, elements
without such a descendant); on the first child whose `ClientUserId` string
equals the argument, look up the status-named direct child — convert its
string if present, `None` otherwise. -/
def scanRecipients (doc : Xml) (rid : Option String) (statusAttr : String) :
    List Xml → Except PyErr (Option PyDatetime)
  | [] => .ok none
  | .text _ :: rest => scanRecipients doc rid statusAttr rest
  | .elem n cs :: rest =>
    match findRecT "ClientUserId" (.elem n cs) with
    | none => scanRecipients doc rid statusAttr rest
    | some tag =>
      if rid = xmlString? tag then
        match findDirect statusAttr (.elem n cs) with
        | some st => (parserDatetime doc (xmlString? st)).map some
        | none => .ok none
      else scanRecipients doc rid statusAttr rest

/-- `DocuSignCallbackParser.recipient_status_datetime(recipient_id,
status)`.  The status name is title-cased; there is no `signed`/`completed`
aliasing here — `'completed'` looks up a child literally named
`Completed`. -/
def recipient_status_datetime (doc : Xml) (rid : Option String) (status : String) :
    Except PyErr (Option PyDatetime) :=
  match findRecTop "EnvelopeStatus" doc with
  | none => .error .attributeError
  | some es =>
    match findRecT "RecipientStatuses" es with
    | none => .error .attributeError
    | some rs => scanRecipients doc rid (pyTitle status) (childrenOf rs)

/-- The recipient node `recipient_status_datetime` would match for a given
correlation id: first direct child of `RecipientStatuses` whose
`ClientUserId` string equals the id (helper used to state claims about
the scan). -/
def matchedRecipient (rid : Option String) : List Xml → Option Xml
  | [] => none
  | .text _ :: rest => matchedRecipient rid rest
  | .elem n cs :: rest =>
    match findRecT "ClientUserId" (.elem n cs) with
    | none => matchedRecipient rid rest
    | some tag =>
      if rid = xmlString? tag then some (.elem n cs)
      else matchedRecipient rid rest

/-- 2-digit zero-padded decimal rendering (DocuSign timestamp fields). -/
def pad2 (n : Nat) : List Char := [digitChar (n / 10 % 10), digitChar (n % 10)]

/-- 4-digit zero-padded decimal rendering (DocuSign timestamp year). -/
def pad4 (n : Nat) : List Char :=
  [digitChar (n / 1000 % 10), digitChar (n / 100 % 10), digitChar (n / 10 % 10),
   digitChar (n % 10)]

/-- A canonical local timestamp string as DocuSign renders them:
`YYYY-MM-DDTHH:MM:SS` with an optional fractional-seconds part of
arbitrary positive length. -/
def renderTs (y mo d h mi s : Nat) (frac : List Char) : String :=
  String.mk (pad4 y ++ '-' :: (pad2 mo ++ '-' :: (pad2 d ++ 'T' :: (pad2 h ++ ':' ::
    (pad2 mi ++ ':' :: (pad2 s ++ (if frac = [] then [] else '.' :: frac)))))))

theorem isDigitB_digitChar (n : Nat) : isDigitB (digitChar n) = true := by
  unfold digitChar
  repeat' split
  all_goals decide

theorem digitVal_digitChar (n : Nat) (h : n < 10) : digitVal (digitChar n) = n := by
  interval_cases n <;> decide

/-- The first component is all digits. -/
def HeadNotDigit : List Char → Prop
  | [] => True
  | c :: _ => isDigitB c = false

theorem spanDigits_eq (ds rest : List Char) (h1 : ∀ c ∈ ds, isDigitB c = true)
    (h2 : HeadNotDigit rest) : spanDigits (ds ++ rest) = (ds, rest) := by
  induction ds with
  | nil =>
    cases rest with
    | nil => rfl
    | cons c cs =>
      simp only [HeadNotDigit] at h2
      simp [spanDigits, h2]
  | cons c cs ih =>
    have hc : isDigitB c = true := h1 c (by simp)
    have ih2 := ih (fun x hx => h1 x (by simp [hx]))
    simp only [spanDigits, Prod.mk.injEq] at ih2 ⊢
    simp [List.takeWhile_cons, List.dropWhile_cons, hc]
    exact ⟨ih2.1, ih2.2⟩

theorem allDigits_pad2 (n : Nat) : ∀ c ∈ pad2 n, isDigitB c = true := by
  simp [pad2, isDigitB_digitChar]

theorem allDigits_pad4 (n : Nat) : ∀ c ∈ pad4 n, isDigitB c = true := by
  simp [pad4, isDigitB_digitChar]

theorem spanDigits_pad2 (n : Nat) (c : Char) (r : List Char)
    (hc : isDigitB c = false) : spanDigits (pad2 n ++ c :: r) = (pad2 n, c :: r) :=
  spanDigits_eq _ _ (allDigits_pad2 n) hc

theorem spanDigits_pad4 (n : Nat) (c : Char) (r : List Char)
    (hc : isDigitB c = false) : spanDigits (pad4 n ++ c :: r) = (pad4 n, c :: r) :=
  spanDigits_eq _ _ (allDigits_pad4 n) hc

theorem digitsVal_pad2 (n : Nat) (h : n < 100) : digitsVal (pad2 n) = n := by
  have h1 : n / 10 % 10 < 10 := Nat.mod_lt _ (by omega)
  have h2 : n % 10 < 10 := Nat.mod_lt _ (by omega)
  simp [pad2, digitsVal, digitVal_digitChar _ h1, digitVal_digitChar _ h2]
  omega

theorem digitsVal_pad4 (n : Nat) (h : n < 10000) : digitsVal (pad4 n) = n := by
  have h1 : n / 1000 % 10 < 10 := Nat.mod_lt _ (by omega)
  have h2 : n / 100 % 10 < 10 := Nat.mod_lt _ (by omega)
  have h3 : n / 10 % 10 < 10 := Nat.mod_lt _ (by omega)
  have h4 : n % 10 < 10 := Nat.mod_lt _ (by omega)
  simp [pad4, digitsVal, digitVal_digitChar _ h1, digitVal_digitChar _ h2,
    digitVal_digitChar _ h3, digitVal_digitChar _ h4]
  omega

theorem natDigits_small (n : Nat) (h : n < 10) : natDigits n = [digitChar n] := by
  rw [natDigits, natDigitsAux]
  simp [h]

theorem natDigits_medium (n : Nat) (h1 : 10 ≤ n) (h2 : n < 100) :
    natDigits n = [digitChar (n / 10), digitChar (n % 10)] := by
  rw [natDigits, natDigitsAux]
  have hx : ¬ n < 10 := by omega
  rw [if_neg hx]
  obtain ⟨m, rfl⟩ : ∃ m, n = m + 1 := ⟨n - 1, by omega⟩
  rw [natDigitsAux]
  have hy : (m + 1) / 10 < 10 := by omega
  simp [hy]

theorem step2_red (yds r : List Char) : step2 (yds, '-' :: r) = step3 yds (spanDigits r) := rfl

theorem step3_red (yds mds r : List Char) :
    step3 yds (mds, '-' :: r) = step4 yds mds (spanDigits r) := rfl

theorem step4_red (yds mds dds r : List Char) :
    step4 yds mds (dds, 'T' :: r) = step5 yds mds dds (spanDigits r) := rfl

theorem step5_red (yds mds dds hds r : List Char) :
    step5 yds mds dds (hds, ':' :: r) = step6 yds mds dds hds (spanDigits r) := rfl

theorem step6_red (yds mds dds hds mids r : List Char) :
    step6 yds mds dds hds (mids, ':' :: r) = step7 yds mds dds hds mids (spanDigits r) := rfl

theorem step7_dot (yds mds dds hds mids sds rf : List Char) :
    step7 yds mds dds hds mids (sds, '.' :: rf) =
      step8 yds mds dds hds mids sds (spanDigits rf).1 (spanDigits rf).2 := rfl

theorem step7_dash (yds mds dds hds mids sds r2 : List Char) :
    step7 yds mds dds hds mids (sds, '-' :: r2) =
      step8 yds mds dds hds mids sds [] ('-' :: r2) := rfl

theorem natDigits_all_digits_le99 (n : Nat) (h : n ≤ 99) :
    ∀ c ∈ natDigits n, isDigitB c = true := by
  by_cases h10 : n < 10
  · rw [natDigits_small n h10]
    simp [isDigitB_digitChar]
  · rw [natDigits_medium n (by omega) (by omega)]
    simp [isDigitB_digitChar]

theorem digitsVal_natDigits_le99 (n : Nat) (h : n ≤ 99) :
    digitsVal (natDigits n) = n := by
  by_cases h10 : n < 10
  · rw [natDigits_small n h10]
    simp [digitsVal, digitVal_digitChar _ h10]
  · rw [natDigits_medium n (by omega) (by omega)]
    have h1 : n / 10 < 10 := by omega
    have h2 : n % 10 < 10 := by omega
    simp [digitsVal, digitVal_digitChar _ h1, digitVal_digitChar _ h2]
    omega

theorem natDigits_length_le99 (n : Nat) (h : n ≤ 99) :
    natDigits n = [digitChar n] ∨
      natDigits n = [digitChar (n / 10), digitChar (n % 10)] := by
  by_cases h10 : n < 10
  · exact Or.inl (natDigits_small n h10)
  · exact Or.inr (natDigits_medium n (by omega) (by omega))

theorem parseTz_neg_hours (oh : Nat) (_h1 : 1 ≤ oh) (h2 : oh ≤ 99) :
    parseTz ('-' :: natDigits oh) = some (-(oh : Int) * 3600) := by
  have hspan : spanDigits (natDigits oh) = (natDigits oh, []) := by
    have := spanDigits_eq (natDigits oh) [] (natDigits_all_digits_le99 oh h2) trivial
    simpa using this
  have hlen : natDigits oh = [digitChar oh] ∨
      natDigits oh = [digitChar (oh / 10), digitChar (oh % 10)] :=
    natDigits_length_le99 oh h2
  have hval : digitsVal (natDigits oh) = oh := digitsVal_natDigits_le99 oh h2
  simp only [parseTz, hspan]
  rcases hlen with hl | hl <;>
    · rw [hl] at hval ⊢
      simp [hval]

theorem daysInMonth_le31 (y m : Nat) : daysInMonth y m ≤ 31 := by
  unfold daysInMonth
  repeat' split
  all_goals omega

theorem headNotDigit_cons (c : Char) (cs : List Char) (h : isDigitB c = false) :
    HeadNotDigit (c :: cs) := h

/-- Core of the C1 analysis: on a canonical zero-padded local timestamp
with any all-digit fraction (possibly empty) and any negative declared
offset of at most two digits, the `format`-then-`dateutil` pipeline of
`DocuSignCallbackParser.datetime` yields the datetime whose local
components are exactly those of the string, whose microseconds are the
fraction digits normalised to six places, and whose attached offset is the
declared offset in hours. -/
theorem formatAndParse_renderTs
    (o : Int) (ho1 : -99 ≤ o) (ho2 : o ≤ -1)
    (y mo d h mi s : Nat) (frac : List Char)
    (hy1 : 1 ≤ y) (hy2 : y ≤ 9999) (hmo1 : 1 ≤ mo) (hmo2 : mo ≤ 12)
    (hd1 : 1 ≤ d) (hd2 : d ≤ daysInMonth y mo) (hh : h ≤ 23) (hmi : mi ≤ 59)
    (hs : s ≤ 59) (hfrac : ∀ c ∈ frac, isDigitB c = true) :
    formatAndParse o (renderTs y mo d h mi s frac) =
      some ⟨y, mo, d, h, mi, s, fracMicros frac, some (o * 3600)⟩ := by
  have hneg : o < 0 := by omega
  have hohv : (o.natAbs : Int) = -o := by omega
  have hoh1 : 1 ≤ o.natAbs := by omega
  have hoh2 : o.natAbs ≤ 99 := by omega
  have hpy : pyIntStr o = String.mk ('-' :: natDigits o.natAbs) := by
    simp [pyIntStr, hneg]
  have hdata : (renderTs y mo d h mi s frac ++ pyIntStr o).data =
      pad4 y ++ '-' :: (pad2 mo ++ '-' :: (pad2 d ++ 'T' :: (pad2 h ++ ':' ::
        (pad2 mi ++ ':' :: (pad2 s ++
          ((if frac = [] then [] else '.' :: frac) ++ '-' :: natDigits o.natAbs)))))) := by
    rw [String.data_append, hpy]
    simp [renderTs]
  have hmk : mkDatetime (pad4 y) (pad2 mo) (pad2 d) (pad2 h) (pad2 mi) (pad2 s)
      frac (some (o * 3600)) =
      some ⟨y, mo, d, h, mi, s, fracMicros frac, some (o * 3600)⟩ := by
    have hlen : (pad4 y).length = 4 := by simp [pad4]
    rw [mkDatetime]
    rw [if_pos (by refine ⟨hlen, ?_, ?_, ?_, ?_, ?_⟩ <;> simp [pad2, pad4])]
    rw [digitsVal_pad4 y (by omega), digitsVal_pad2 mo (by omega),
      digitsVal_pad2 d (by have := daysInMonth_le31 y mo; omega),
      digitsVal_pad2 h (by omega), digitsVal_pad2 mi (by omega),
      digitsVal_pad2 s (by omega)]
    rw [if_pos (by refine ⟨hy1, hmo1, hmo2, hd1, hd2, hh, hmi, hs⟩)]
  have htz : parseTz ('-' :: natDigits o.natAbs) = some (o * 3600) := by
    rw [parseTz_neg_hours o.natAbs hoh1 hoh2]
    congr 1
    omega
  have hstep8 : step8 (pad4 y) (pad2 mo) (pad2 d) (pad2 h) (pad2 mi) (pad2 s)
      frac ('-' :: natDigits o.natAbs) =
      some ⟨y, mo, d, h, mi, s, fracMicros frac, some (o * 3600)⟩ := by
    simp only [step8, htz, hmk]
  rw [formatAndParse, dateutilParse, hdata]
  rw [spanDigits_pad4 y '-' _ (by decide), step2_red,
    spanDigits_pad2 mo '-' _ (by decide), step3_red,
    spanDigits_pad2 d 'T' _ (by decide), step4_red,
    spanDigits_pad2 h ':' _ (by decide), step5_red,
    spanDigits_pad2 mi ':' _ (by decide), step6_red]
  by_cases hf : frac = []
  · subst hf
    have h0 : ((if ([] : List Char) = [] then ([] : List Char) else '.' :: ([] : List Char))
        ++ '-' :: natDigits o.natAbs) = '-' :: natDigits o.natAbs := rfl
    rw [h0]
    rw [spanDigits_pad2 s '-' _ (by decide), step7_dash]
    exact hstep8
  · rw [if_neg hf, List.cons_append]
    rw [spanDigits_pad2 s '.' _ (by decide), step7_dot]
    have hfr : spanDigits (frac ++ '-' :: natDigits o.natAbs) =
        (frac, '-' :: natDigits o.natAbs) :=
      spanDigits_eq frac _ hfrac (headNotDigit_cons _ _ (by decide))
    rw [hfr]
    exact hstep8

/-- Days between 1970-01-01 and the given Gregorian civil date (the
standard days-from-civil formula; all intermediate quantities are
non-negative for years ≥ 1, so truncating division coincides with floor
division here). -/
def daysFromCivil (y m d : Int) : Int :=
  let yy := if m ≤ 2 then y - 1 else y
  let era := yy / 400
  let yoe := yy - era * 400
  let mp := (m + 9) % 12
  let doy := (153 * mp + 2) / 5 + d - 1
  let doe := yoe * 365 + yoe / 4 - yoe / 100 + doy
  era * 146097 + doe - 719468

/-- Microseconds since the epoch, the key under which Python compares two
`datetime` values (for aware values the UTC offset is subtracted; inside a
single callback document every converted instant carries the same offset,
or none at all, so defaulting a missing offset to zero is faithful to the
comparisons the parser performs). -/
def instantKey (dt : PyDatetime) : Int :=
  (daysFromCivil dt.year dt.month dt.day * 86400
    + dt.hour * 3600 + dt.minute * 60 + dt.second - dt.tz.getD 0) * 1000000
    + dt.microsecond

/-- One event dict of the parser: `datetime` and `status` always present;
`object`, `recipient`, `recipientId`, `clientUserId` present for some
event kinds (outer `none` models an absent key, inner `Option String`
models a possibly-`None` value). -/
structure Event where
  dt : PyDatetime
  status : String
  obj : Option String := none
  recipient : Option (Option String) := none
  recipientId : Option (Option String) := none
  clientUserId : Option (Option String) := none
deriving Repr, DecidableEq

/-- `cmp_events` as an ordering: compare events by their datetime. -/
def eventLE (a b : Event) : Prop := instantKey a.dt ≤ instantKey b.dt

instance : DecidableRel eventLE := fun _ _ => Int.decLe _ _

instance : IsTotal Event eventLE := ⟨fun _ _ => Int.le_total _ _⟩

instance : IsTrans Event eventLE := ⟨fun _ _ _ h1 h2 => le_trans h1 h2⟩

/-- Collection loop of `DocuSignCallbackParser.envelope_events`: probe
every status of `Envelope.STATUS_LIST` in enumeration order and collect
the present ones. -/
def envelopeEventsRaw (doc : Xml) : Except PyErr (List Event) :=
  ENVELOPE_STATUS_LIST.foldlM (fun acc status => do
    match ← envelope_status_datetime doc status with
    | some dt => pure (acc ++ [{ dt := dt, status := status }])
    | none => pure acc) []

/-- `DocuSignCallbackParser.envelope_events`: the collected events, sorted
by datetime with Python's stable `list.sort(cmp)` (modelled by the stable
`List.insertionSort`, which computes the same list as any stable
sort). -/
def envelope_events (doc : Xml) : Except PyErr (List Event) :=
  match envelopeEventsRaw doc with
  | .error e2 => .error e2
  | .ok evs => .ok (evs.insertionSort eventLE)

/-- Inner status loop of `DocuSignCallbackParser.recipient_events` for one
recipient node. -/
def recipientEventsStatuses (doc : Xml) (recipientId clientUserId : Option String)
    (acc : List Event) : Except PyErr (List Event) :=
  RECIPIENT_STATUS_LIST.foldlM (fun acc2 status => do
    match ← recipient_status_datetime doc clientUserId status with
    | some dt =>
      pure (acc2 ++
        [{ dt := dt, status := status, recipient := some clientUserId,
           recipientId := some recipientId, clientUserId := some clientUserId }])
    | none => pure acc2) acc

/-- Collection loop of `DocuSignCallbackParser.recipient_events`: for each
direct child of `RecipientStatuses` carrying both a `RecipientId` and a
`ClientUserId` (children failing those attribute accesses are skipped),
probe every status of `Recipient.STATUS_LIST`. -/
def recipientEventsRaw (doc : Xml) : Except PyErr (List Event) :=
  match findRecTop "EnvelopeStatus" doc with
  | none => .error .attributeError
  | some es =>
    match findRecT "RecipientStatuses" es with
    | none => .error .attributeError
    | some rs =>
      (childrenOf rs).foldlM (fun acc child =>
        match child with
        | .text _ => pure acc
        | .elem n cs =>
          match findRecT "RecipientId" (.elem n cs) with
          | none => pure acc
          | some ridTag =>
            match findRecT "ClientUserId" (.elem n cs) with
            | none => pure acc
            | some cuidTag =>
              recipientEventsStatuses doc (xmlString? ridTag) (xmlString? cuidTag) acc) []

/-- `DocuSignCallbackParser.recipient_events`: collected and sorted by
datetime (stable). -/
def recipient_events (doc : Xml) : Except PyErr (List Event) :=
  match recipientEventsRaw doc with
  | .error e2 => .error e2
  | .ok evs => .ok (evs.insertionSort eventLE)

/-- Tagging of an envelope event inside `events`: `object: 'envelope'`,
`recipient: None` (the key is added, holding `None`). -/
def tagEnvelope (e : Event) : Event :=
  { e with obj := some "envelope", recipient := some none }

/-- Tagging of a recipient event inside `events`: `object: 'recipient'`
(the `recipient` key is already present). -/
def tagRecipient (e : Event) : Event := { e with obj := some "recipient" }

/-- `DocuSignCallbackParser.events`: tag and concatenate both event lists,
then sort the union by datetime (stable). -/
def events (doc : Xml) : Except PyErr (List Event) :=
  match envelope_events doc with
  | .error e2 => .error e2
  | .ok eevs =>
    match recipient_events doc with
    | .error e2 => .error e2
    | .ok revs =>
      .ok ((eevs.map tagEnvelope ++ revs.map tagRecipient).insertionSort eventLE)

/-- `Option Int` to `PyVal` (attribute holding an int or `None`). -/
def optI : Option Int → PyVal
  | none => .pnone
  | some n => .pint n

/-- `Option String` to `PyVal` (attribute holding a string or `None`). -/
def optS : Option String → PyVal
  | none => .pnone
  | some s => .pstr s

/-- A positioned tab (`SignHereTab` / `ApproveTab`): the subclass is the
`tabsName` wire tag (`'signHereTabs'` / `'approveTabs'`), the payload
attributes coincide. -/
structure TabObj where
  tabsName : String
  documentId : Option Int := none
  pageNumber : Int := 1
  xPosition : Int := 0
  yPosition : Int := 0
deriving DecidableEq, Repr

/-- `PositionnedTab.to_dict` via the generic attribute list
`['documentId', 'pageNumber', 'xPosition', 'yPosition']`. -/
def TabObj.to_dict (t : TabObj) : PyVal :=
  .pdict [("documentId", optI t.documentId), ("pageNumber", .pint t.pageNumber),
          ("xPosition", .pint t.xPosition), ("yPosition", .pint t.yPosition)]

/-- A `Signer`/`Role` object as a record of its (dynamic) attributes.  The
two Python classes share every field the code reads; `roleName` is a
`Role` constructor field that `get_recipients` also assigns dynamically
onto `Signer` objects, and `recipientId` holds whatever value was assigned
(int by callers, string by the server), hence `PyVal`.  The typed
collections make the `isinstance` filters of the source identities. -/
structure SignerM where
  clientUserId : Option String := none
  email : Option String := some ""
  emailBody : Option String := none
  emailSubject : Option String := none
  supportedLanguage : Option String := none
  name : Option String := some ""
  recipientId : PyVal := .pnone
  routingOrder : Int := 0
  tabs : List TabObj := []
  userId : Option String := none
  accessCode : Option String := none
  roleName : Option String := none

/-- `tabs.setdefault(tab.tabs_name, []); tabs[tab.tabs_name].append(...)`:
append a tab payload under its wire tag, creating the key at the end on
first use. -/
def addTabTo : List (String × PyVal) → String → PyVal → List (String × PyVal)
  | [], k, v => [(k, .plist [v])]
  | (k2, v2) :: rest, k, v =>
    if k2 = k then
      (k2, match v2 with | .plist vs => .plist (vs ++ [v]) | other => other) :: rest
    else (k2, v2) :: addTabTo rest k v

/-- Grouping of a recipient's tabs into the `tabs` mapping of
`Signer.to_dict`. -/
def tabsGroup (tabs : List TabObj) : List (String × PyVal) :=
  tabs.foldl (fun acc t => addTabTo acc t.tabsName t.to_dict) []

/-- The nested `emailNotification` object of `Signer.to_dict` and
`Role.to_dict`: built exactly when any of body/subject/language is truthy,
explicit `None` otherwise. -/
def emailNotificationVal (body subject language : Option String) : PyVal :=
  if truthyO body || truthyO subject || truthyO language then
    .pdict [("emailBody", optS body), ("emailSubject", optS subject),
            ("supportedLanguage", optS language)]
  else .pnone

/-- `Signer.to_dict` (`models.py`). -/
def SignerM.to_dict (s : SignerM) : PyVal :=
  .pdict [
    ("clientUserId", optS s.clientUserId),
    ("email", optS s.email),
    ("emailNotification", emailNotificationVal s.emailBody s.emailSubject s.supportedLanguage),
    ("name", optS s.name),
    ("recipientId", s.recipientId),
    ("routingOrder", .pint s.routingOrder),
    ("tabs", .pdict (tabsGroup s.tabs)),
    ("accessCode", optS s.accessCode)]

/-- `Role.to_dict` (`models.py`). -/
def roleToDict (r : SignerM) : PyVal :=
  .pdict [
    ("clientUserId", optS r.clientUserId),
    ("email", optS r.email),
    ("emailNotification", emailNotificationVal r.emailBody r.emailSubject r.supportedLanguage),
    ("name", optS r.name),
    ("roleName", optS r.roleName)]

/-- A readable byte stream (`Document.data` file wrapper): contents plus a
current read position.  `read()` returns everything from the position to
the end and leaves the position at the end. -/
structure PyStream where
  content : List Nat
  pos : Nat := 0
deriving DecidableEq, Repr

/-- Python `file.read()`: bytes from the current position to end-of-stream;
the position moves to the end. -/
def PyStream.read (st : PyStream) : List Nat × PyStream :=
  (st.content.drop st.pos, { st with pos := st.content.length })

/-- A `Document` (`models.py`): id, display name and the data stream. -/
structure DocumentM where
  documentId : Option Int := none
  name : String := ""
  data : PyStream
deriving DecidableEq, Repr

/-- `Document.to_dict` via the attribute list `['documentId', 'name']`. -/
def DocumentM.to_dict (d : DocumentM) : PyVal :=
  .pdict [("documentId", optI d.documentId), ("name", .pstr d.name)]

/-- One entry of `envelopeEvents`/`recipientEvents`. -/
structure EventSubsc where
  code : String
  includeDocuments : Bool := false
deriving DecidableEq, Repr

/-- `{'envelopeEventStatusCode': ..., 'includeDocuments': ...}`. -/
def envEventDict (e : EventSubsc) : PyVal :=
  .pdict [("envelopeEventStatusCode", .pstr e.code),
          ("includeDocuments", .pbool e.includeDocuments)]

/-- `{'recipientEventStatusCode': ..., 'includeDocuments': ...}`. -/
def recEventDict (e : EventSubsc) : PyVal :=
  .pdict [("recipientEventStatusCode", .pstr e.code),
          ("includeDocuments", .pbool e.includeDocuments)]

/-- `DEFAULT_ENVELOPE_EVENTS`: every envelope status except `Created` and
`Draft`. -/
def DEFAULT_ENVELOPE_EVENTS : List EventSubsc :=
  [⟨"Sent", false⟩, ⟨"Delivered", false⟩, ⟨"Completed", false⟩,
   ⟨"Declined", false⟩, ⟨"Voided", false⟩]

/-- `DEFAULT_RECIPIENT_EVENTS`: every recipient status except `Signed`. -/
def DEFAULT_RECIPIENT_EVENTS : List EventSubsc :=
  [⟨"AuthenticationFailed", false⟩, ⟨"AutoResponded", false⟩, ⟨"Completed", false⟩,
   ⟨"Declined", false⟩, ⟨"Delivered", false⟩, ⟨"Sent", false⟩]

/-- An `EventNotification` (`models.py`). -/
structure EventNotificationM where
  url : String := ""
  loggingEnabled : Bool := true
  requireAcknoledgement : Bool := true
  useSoapInterface : Bool := false
  soapNameSpace : String := ""
  includeCertificateWithSoap : Bool := false
  signMessageWithX509Cert : Bool := false
  includeDocuments : Bool := false
  includeTimeZone : Bool := true
  includeSenderAccountAsCustomField : Bool := true
  envelopeEvents : List EventSubsc := DEFAULT_ENVELOPE_EVENTS
  recipientEvents : List EventSubsc := DEFAULT_RECIPIENT_EVENTS

/-- `EventNotification.to_dict` via its attribute list. -/
def EventNotificationM.to_dict (n : EventNotificationM) : PyVal :=
  .pdict [
    ("url", .pstr n.url),
    ("loggingEnabled", .pbool n.loggingEnabled),
    ("requireAcknoledgement", .pbool n.requireAcknoledgement),
    ("useSoapInterface", .pbool n.useSoapInterface),
    ("soapNameSpace", .pstr n.soapNameSpace),
    ("includeCertificateWithSoap", .pbool n.includeCertificateWithSoap),
    ("signMessageWithX509Cert", .pbool n.signMessageWithX509Cert),
    ("includeDocuments", .pbool n.includeDocuments),
    ("includeTimeZone", .pbool n.includeTimeZone),
    ("includeSenderAccountAsCustomField", .pbool n.includeSenderAccountAsCustomField),
    ("envelopeEvents", .plist (n.envelopeEvents.map envEventDict)),
    ("recipientEvents", .plist (n.recipientEvents.map recEventDict))]

/-- An `Envelope` (`models.py`): document-mode fields (`documents`,
`recipients`) and template-mode fields (`templateId`, `templateRoles`). -/
structure EnvelopeM where
  documents : List DocumentM := []
  emailBlurb : String := ""
  emailSubject : String := ""
  eventNotification : Option EventNotificationM := none
  recipients : List SignerM := []
  templateId : Option String := none
  templateRoles : Option (List SignerM) := none
  status : String := "Sent"

/-- `Envelope.to_dict` (`models.py`): base fields, the optional
`eventNotification`, then either `templateId`/`templateRoles` (when the
template id is truthy) or `documents`/`recipients`.  Iterating a `None`
`templateRoles` raises `TypeError`. -/
def EnvelopeM.to_dict (e : EnvelopeM) : Except PyErr PyVal :=
  let base : List (String × PyVal) :=
    [("status", .pstr e.status), ("emailBlurb", .pstr e.emailBlurb),
     ("emailSubject", .pstr e.emailSubject)] ++
    (match e.eventNotification with
     | some n => [("eventNotification", n.to_dict)]
     | none => [])
  let docMode : Except PyErr PyVal :=
    .ok (.pdict (base ++
      [("documents", .plist (e.documents.map DocumentM.to_dict)),
       ("recipients", .pdict [("signers", .plist (e.recipients.map SignerM.to_dict))])]))
  match e.templateId with
  | some tid =>
    if tid ≠ "" then
      match e.templateRoles with
      | none => .error .typeError
      | some roles =>
        .ok (.pdict (base ++
          [("templateId", .pstr tid),
           ("templateRoles", .plist (roles.map roleToDict))]))
    else docMode
  | none => docMode

/-- A server-returned signer record (`get_envelope_recipients` JSON):
every field optional, `routingOrder` a string-encoded integer. -/
structure ServerRec where
  clientUserId : Option String := none
  routingOrder : Option String := none
  name : Option String := none
  userId : Option String := none
  recipientId : Option String := none
  email : Option String := none
  roleName : Option String := none
deriving DecidableEq, Repr

/-- The correlation key of a server record, when truthy:
`recipient_data.get('clientUserId', None)` followed by the
`if client_user_id:` test. -/
def serverKey (r : ServerRec) : Option String :=
  match r.clientUserId with
  | some c => if c ≠ "" then some c else none
  | none => none

/-- `Signer()`: the freshly synthesized recipient for an unmatched server
record. -/
def freshSigner : SignerM := {}

/-- Field overwrite of `get_recipients` step 2:
`routingOrder`/`name`/`userId`/`recipientId`/`clientUserId`/`email`/
`roleName` are taken from the server record (`int(...get('routingOrder',
1))` may raise `ValueError`), everything else is kept from the base
object. -/
def applyServer (base : SignerM) (r : ServerRec) : Except PyErr SignerM :=
  match (match r.routingOrder with
         | none => Except.ok (1 : Int)
         | some str => pyIntOfString str) with
  | .error e2 => .error e2
  | .ok ro =>
    .ok { base with
      routingOrder := ro,
      name := some (r.name.getD ""),
      userId := r.userId,
      recipientId := (match r.recipientId with | none => .pnone | some s2 => .pstr s2),
      clientUserId := r.clientUserId,
      email := r.email,
      roleName := r.roleName }

/-- The `enumerate`/`del`/`break` search of `get_recipients`: remove the
first list entry satisfying the test, returning it and the shrunken
list. -/
def extractFirst (p : SignerM → Bool) : List SignerM → Option (SignerM × List SignerM)
  | [] => none
  | x :: xs =>
    if p x then some (x, xs)
    else
      match extractFirst p xs with
      | some (y, ys) => some (y, x :: ys)
      | none => none

/-- Exact string match on the correlation key. -/
def keyMatches (c : String) (loc : SignerM) : Bool := loc.clientUserId = some c

/-- One iteration of the `get_recipients` loop: match-and-remove a local
recipient by truthy correlation key (or synthesize a fresh one), then
overwrite its fields from the server record. -/
def syncStep (pool : List SignerM) (r : ServerRec) :
    Except PyErr (List SignerM × SignerM) :=
  let pb : List SignerM × SignerM :=
    match serverKey r with
    | some c =>
      match extractFirst (keyMatches c) pool with
      | some (loc, rest) => (rest, loc)
      | none => (pool, freshSigner)
    | none => (pool, freshSigner)
  match applyServer pb.2 r with
  | .error e2 => .error e2
  | .ok s => .ok (pb.1, s)

/-- The whole `get_recipients` loop over the server records, threading the
(mutated) search pool and collecting `synced_recipients` in order. -/
def syncLoop : List SignerM → List ServerRec → Except PyErr (List SignerM × List SignerM)
  | pool, [] => .ok (pool, [])
  | pool, r :: rs =>
    match syncStep pool r with
    | .error e2 => .error e2
    | .ok (pool2, s) =>
      match syncLoop pool2 rs with
      | .error e2 => .error e2
      | .ok (poolF, ss) => .ok (poolF, s :: ss)

/-- `cmp_recipients` as an ordering: compare recipients by routing
order. -/
def recipLE (a b : SignerM) : Prop := a.routingOrder ≤ b.routingOrder

instance : DecidableRel recipLE := fun _ _ => Int.decLe _ _

instance : IsTotal SignerM recipLE := ⟨fun _ _ => Int.le_total _ _⟩

instance : IsTrans SignerM recipLE := ⟨fun _ _ _ h1 h2 => le_trans h1 h2⟩

/-- `Envelope.get_recipients` (`models.py`), over the `signers` list of
the server response: in template mode the search pool is `templateRoles`
(mutated in place by the deletions, so the leftover pool is what remains
there afterwards); in document mode it is `recipients` (whose mutation is
then overwritten).  Either way the stably-sorted synced list is assigned
to `recipients`. -/
def get_recipients (env : EnvelopeM) (serverSigners : List ServerRec) :
    Except PyErr EnvelopeM :=
  if truthyO env.templateId then
    match env.templateRoles with
    | none => .error .typeError
    | some roles =>
      match syncLoop roles serverSigners with
      | .error e2 => .error e2
      | .ok (pool2, synced) =>
        .ok { env with templateRoles := some pool2,
                       recipients := synced.insertionSort recipLE }
  else
    match syncLoop env.recipients serverSigners with
    | .error e2 => .error e2
    | .ok (_, synced) =>
      .ok { env with recipients := synced.insertionSort recipLE }

/-- The base64 alphabet. -/
def B64_ALPHABET : List Char :=
  "ABCDEFGHIJKLMNOPQRSTUVWXYZabcdefghijklmnopqrstuvwxyz0123456789+/".data

/-- One 6-bit group to its base64 character. -/
def b64char (n : Nat) : Char := B64_ALPHABET.getD n '?'

/-- `base64.b64encode` on a byte list: 3-byte groups become 4 characters,
with `=` padding for a trailing group of 1 or 2 bytes. -/
def b64encodeGo : List Nat → List Char
  | [] => []
  | [a] => [b64char (a / 4), b64char (a % 4 * 16), '=', '=']
  | [a, b] => [b64char (a / 4), b64char (a % 4 * 16 + b / 16), b64char (b % 16 * 4), '=']
  | a :: b :: c :: rest =>
    b64char (a / 4) :: b64char (a % 4 * 16 + b / 16) :: b64char (b % 16 * 4 + c / 64) ::
      b64char (c % 64) :: b64encodeGo rest

/-- `base64.b64encode(...).decode('utf-8')`. -/
def b64encode (bs : List Nat) : String := String.mk (b64encodeGo (bs.map (· % 256)))

/-- The per-document payload of
`DocuSignClient._create_envelope_from_documents_request`: the bytes are
read from the document stream's current position (there is no seek), and
the stream is left at end-of-stream. -/
def encodeDocument (d : DocumentM) : PyVal × DocumentM :=
  let (bs, st2) := d.data.read
  (.pdict [("documentId", optI d.documentId), ("name", .pstr d.name),
           ("fileExtension", .pstr "pdf"), ("documentBase64", .pstr (b64encode bs))],
   { d with data := st2 })

/-- Encode every document of the envelope in order, threading stream
state. -/
def encodeDocuments : List DocumentM → List PyVal × List DocumentM
  | [] => ([], [])
  | d :: ds =>
    let (v, d2) := encodeDocument d
    let (vs, ds2) := encodeDocuments ds
    (v :: vs, d2 :: ds2)

/-- `data['documents'] = documents`: replace the binding when present,
append it otherwise. -/
def dictSetKey (kvs : List (String × PyVal)) (k : String) (v : PyVal) :
    List (String × PyVal) :=
  if (lookupKV k kvs).isSome then
    kvs.map (fun kv => if kv.1 = k then (k, v) else kv)
  else kvs ++ [(k, v)]

/-- `DocuSignClient._create_envelope_from_documents_request`: the
envelope's `to_dict` payload with its `documents` entry replaced by the
base64-embedded document list; returns the payload and the envelope with
its document streams advanced by the `read()` calls. -/
def createEnvelopeFromDocumentsRequest (env : EnvelopeM) :
    Except PyErr (PyVal × EnvelopeM) := do
  let base ← env.to_dict
  let (docVals, docs2) := encodeDocuments env.documents
  let payload := match base with
    | .pdict kvs => PyVal.pdict (dictSetKey kvs "documents" (.plist docVals))
    | other => other
  pure (payload, { env with documents := docs2 })

/-- A document declaring timezone offset `-7` (the doctest document of
`DocuSignCallbackParser.datetime`). -/
def docOffsetM7 : Xml :=
  .elem "DocuSignEnvelopeInformation" (xlist
    [.elem "TimeZone" (xlist [.text "Pacific Standard Time"]),
     .elem "TimeZoneOffset" (xlist [.text "-7"])])

/-- A document declaring timezone offset `7` (positive). -/
def docOffsetP7 : Xml :=
  .elem "DocuSignEnvelopeInformation" (xlist
    [.elem "TimeZone" (xlist [.text "Some Zone"]),
     .elem "TimeZoneOffset" (xlist [.text "7"])])

/-- C1 (amended): for every callback document whose declared timezone
offset is a negative integer number of hours (one or two digits, the
DocuSign case) and every canonical local timestamp string — components in
range, fractional seconds optional and of arbitrary length —
`DocuSignCallbackParser.datetime(raw)` returns the offset-aware instant
whose local time equals the parsed string (microseconds being the
fraction normalised to six digits, independent of its length) and whose
attached offset equals the document's declared offset in hours.  (As
stated over every signed offset the claim fails: a non-negative offset is
rendered without a sign, so its digits are absorbed into the
seconds/fraction token and no offset is attached — see the
counterexample.) -/
theorem C1_datetime_conversion
    (doc : Xml) (o : Int) (hoff : timezone_offset doc = .ok o)
    (ho1 : -99 ≤ o) (ho2 : o ≤ -1)
    (y mo d h mi s : Nat) (frac : List Char)
    (hy1 : 1 ≤ y) (hy2 : y ≤ 9999) (hmo1 : 1 ≤ mo) (hmo2 : mo ≤ 12)
    (hd1 : 1 ≤ d) (hd2 : d ≤ daysInMonth y mo) (hh : h ≤ 23) (hmi : mi ≤ 59)
    (hs : s ≤ 59) (hfrac : ∀ c ∈ frac, isDigitB c = true) :
    parserDatetime doc (some (renderTs y mo d h mi s frac)) =
      .ok ⟨y, mo, d, h, mi, s, fracMicros frac, some (o * 3600)⟩ := by
  have hfp := formatAndParse_renderTs o ho1 ho2 y mo d h mi s frac hy1 hy2 hmo1 hmo2
    hd1 hd2 hh hmi hs hfrac
  simp only [parserDatetime, hoff, Option.getD, bind, Except.bind, hfp]

/-- Witness for C1: the two doctest examples under offset `-7`, including
the fraction-length independence pair. -/
theorem C1_datetime_conversion_witness :
    parserDatetime docOffsetM7 (some "2014-10-06T01:41:40.6076508") =
      .ok ⟨2014, 10, 6, 1, 41, 40, 607650, some (-25200)⟩ ∧
    parserDatetime docOffsetM7 (some "2014-10-06T01:41:40.12") =
      .ok ⟨2014, 10, 6, 1, 41, 40, 120000, some (-25200)⟩ := by
  constructor
  · have h := C1_datetime_conversion docOffsetM7 (-7) (by rfl) (by norm_num) (by norm_num)
      2014 10 6 1 41 40 ['6', '0', '7', '6', '5', '0', '8'] (by norm_num) (by norm_num)
      (by norm_num) (by norm_num) (by norm_num) (by decide) (by norm_num) (by norm_num)
      (by norm_num) (by decide)
    rw [show renderTs 2014 10 6 1 41 40 ['6', '0', '7', '6', '5', '0', '8'] =
      "2014-10-06T01:41:40.6076508" from by decide] at h
    rw [show fracMicros ['6', '0', '7', '6', '5', '0', '8'] = 607650 from by decide] at h
    norm_num at h
    exact h
  · have h := C1_datetime_conversion docOffsetM7 (-7) (by rfl) (by norm_num) (by norm_num)
      2014 10 6 1 41 40 ['1', '2'] (by norm_num) (by norm_num)
      (by norm_num) (by norm_num) (by norm_num) (by decide) (by norm_num) (by norm_num)
      (by norm_num) (by decide)
    rw [show renderTs 2014 10 6 1 41 40 ['1', '2'] =
      "2014-10-06T01:41:40.12" from by decide] at h
    rw [show fracMicros ['1', '2'] = 120000 from by decide] at h
    norm_num at h
    exact h

/-- C1 counterexample: under the declared offset `7` the very
fraction-length example of the claim comes back as a *naive* datetime
whose microseconds are `127000` — the `'7'` appended by
`'{datetime}{offset}'.format` carries no sign and is absorbed into the
fraction — not the offset-aware `01:41:40.120000` at UTC+7 the claim
requires for every signed offset. -/
theorem C1_datetime_counterexample :
    parserDatetime docOffsetP7 (some "2014-10-06T01:41:40.12") =
      .ok ⟨2014, 10, 6, 1, 41, 40, 127000, none⟩ ∧
    parserDatetime docOffsetP7 (some "2014-10-06T01:41:40.12") ≠
      .ok ⟨2014, 10, 6, 1, 41, 40, 120000, some (7 * 3600)⟩ := by
  constructor
  · decide
  · decide

/-- A one-document envelope whose PDF stream starts at position 0 (the
bytes spell `%PDF`). -/
def pdfDoc : DocumentM :=
  { documentId := some 1, name := "document.pdf",
    data := { content := [37, 80, 68, 70], pos := 0 } }

/-- Document-mode envelope holding `pdfDoc`. -/
def envC7 : EnvelopeM :=
  { documents := [pdfDoc], emailBlurb := "This is the email body",
    emailSubject := "This is the email subject" }

/-- First build of the creation payload for `envC7`. -/
def c7FirstAttempt : Except PyErr (PyVal × EnvelopeM) :=
  createEnvelopeFromDocumentsRequest envC7

/-- Second build of the creation payload (the retry), on the envelope
state left by the first build. -/
def c7SecondAttempt : Except PyErr (PyVal × EnvelopeM) :=
  match c7FirstAttempt with
  | .ok (_, env1) => createEnvelopeFromDocumentsRequest env1
  | .error e2 => .error e2

/-- The `documentBase64` entry of the single document of a request
payload. -/
def payloadDocB64 (r : Except PyErr (PyVal × EnvelopeM)) : Option PyVal :=
  match r with
  | .ok (p, _) =>
    match dlookup "documents" p with
    | some (.plist [d]) => dlookup "documentBase64" d
    | _ => none
  | .error _ => none

/-- C7 (code bug): `_create_envelope_from_documents_request` never resets
the document stream to the start — it reads from the current position.
On a fresh stream the first encode attempt embeds the full content
(`base64('%PDF') = 'JVBERg=='`), but a second attempt on the same stream
(a retry) embeds the empty string, not the document's content from the
beginning as the specification requires. -/
theorem C7_no_stream_reset :
    payloadDocB64 c7FirstAttempt = some (.pstr "JVBERg==") ∧
    payloadDocB64 c7SecondAttempt = some (.pstr "") ∧
    b64encode [37, 80, 68, 70] = "JVBERg==" ∧
    ("" : String) ≠ "JVBERg==" := by
  refine ⟨rfl, rfl, rfl, by decide⟩

/-- C8: for every Signer and every Role, once any of body/subject/language
is truthy the serialized `emailNotification` is the nested mapping holding
exactly those three keys; otherwise the key is present with an explicit
`None` — it is never absent. -/
theorem C8_emailNotification_grouping (s : SignerM) (r : SignerM) :
    dlookup "emailNotification" (SignerM.to_dict s) =
      some (if truthyO s.emailBody || truthyO s.emailSubject || truthyO s.supportedLanguage
        then .pdict [("emailBody", optS s.emailBody), ("emailSubject", optS s.emailSubject),
                     ("supportedLanguage", optS s.supportedLanguage)]
        else .pnone) ∧
    dlookup "emailNotification" (roleToDict r) =
      some (if truthyO r.emailBody || truthyO r.emailSubject || truthyO r.supportedLanguage
        then .pdict [("emailBody", optS r.emailBody), ("emailSubject", optS r.emailSubject),
                     ("supportedLanguage", optS r.supportedLanguage)]
        else .pnone) := by
  constructor
  · simp [SignerM.to_dict, dlookup, lookupKV, emailNotificationVal]
  · simp [roleToDict, dlookup, lookupKV, emailNotificationVal]

theorem lookupKV_append (k : String) (xs ys : List (String × PyVal)) :
    lookupKV k (xs ++ ys) =
      (match lookupKV k xs with
       | some v => some v
       | none => lookupKV k ys) := by
  induction xs with
  | nil => simp [lookupKV]
  | cons kv rest ih =>
    by_cases hk : kv.1 = k
    · simp [lookupKV, hk]
    · simp [lookupKV, hk, ih]

/-- Key presence in a serialized payload. -/
def hasKeyB (p : PyVal) (k : String) : Bool := (dlookup k p).isSome

/-- C9: every successfully serialized envelope payload carries exactly one
mode's field group — `templateId`/`templateRoles` and never
`documents`/`recipients` when the template id is truthy, and conversely
otherwise. -/
theorem C9_mode_exclusivity (e : EnvelopeM) (d : PyVal)
    (hd : EnvelopeM.to_dict e = .ok d) :
    (truthyO e.templateId = true →
      hasKeyB d "templateId" = true ∧ hasKeyB d "templateRoles" = true ∧
      hasKeyB d "documents" = false ∧ hasKeyB d "recipients" = false) ∧
    (truthyO e.templateId = false →
      hasKeyB d "documents" = true ∧ hasKeyB d "recipients" = true ∧
      hasKeyB d "templateId" = false ∧ hasKeyB d "templateRoles" = false) := by
  obtain ⟨docs, blurb, subj, evn, recips, tid, troles, st⟩ := e
  rw [EnvelopeM.to_dict] at hd
  cases tid with
  | none =>
    cases evn <;>
      · simp only [] at hd
        injection hd with hd
        subst hd
        refine ⟨fun h2 => by simp [truthyO] at h2, fun _ => ?_⟩
        simp [hasKeyB, dlookup, lookupKV]
  | some tidv =>
    by_cases ht : tidv = ""
    · subst ht
      cases evn <;>
        · simp only [ne_eq, not_true_eq_false, ite_false, reduceIte] at hd
          injection hd with hd
          subst hd
          refine ⟨fun h2 => by simp [truthyO] at h2, fun _ => ?_⟩
          simp [hasKeyB, dlookup, lookupKV]
    · cases troles with
      | none => simp [ht] at hd
      | some roles =>
        cases evn <;>
          · simp only [ne_eq, ht, not_false_iff, ite_true, reduceIte] at hd
            injection hd with hd
            subst hd
            refine ⟨fun _ => ?_, fun h2 => by simp [truthyO, ht] at h2⟩
            simp [hasKeyB, dlookup, lookupKV]

/-- A document-mode envelope (no template id). -/
def envC9doc : EnvelopeM := { emailBlurb := "body", emailSubject := "subject" }

/-- A template-mode envelope with one role. -/
def envC9tpl : EnvelopeM :=
  { emailBlurb := "body", emailSubject := "subject",
    templateId := some "1111-2222-3333-4444",
    templateRoles := some [{ name := some "My Name", email := some "signer@example.com",
                             roleName := some "Role 1" }] }

/-- The serialized payload of `envC9doc`. -/
def c9DocPayload : PyVal :=
  match EnvelopeM.to_dict envC9doc with
  | .ok d => d
  | .error _ => .pnone

/-- The serialized payload of `envC9tpl`. -/
def c9TplPayload : PyVal :=
  match EnvelopeM.to_dict envC9tpl with
  | .ok d => d
  | .error _ => .pnone

/-- Witness for C9: a concrete document-mode and a concrete template-mode
envelope. -/
theorem C9_mode_exclusivity_witness :
    (hasKeyB c9DocPayload "documents" = true ∧ hasKeyB c9DocPayload "recipients" = true ∧
     hasKeyB c9DocPayload "templateId" = false ∧ hasKeyB c9DocPayload "templateRoles" = false) ∧
    (hasKeyB c9TplPayload "templateId" = true ∧ hasKeyB c9TplPayload "templateRoles" = true ∧
     hasKeyB c9TplPayload "documents" = false ∧ hasKeyB c9TplPayload "recipients" = false) := by
  have h1 := C9_mode_exclusivity envC9doc c9DocPayload rfl
  have h2 := C9_mode_exclusivity envC9tpl c9TplPayload rfl
  exact ⟨h1.2 rfl, h2.1 rfl⟩

/-- C6: whenever the `EnvelopeStatus` node is located,
`envelope_status_datetime(status)` consults only that node's direct
children: if no direct child bears the title-cased status name the result
is absence — regardless of same-named nodes nested deeper, say inside a
`RecipientStatus` — and if such a direct child exists (first one in
document order), its string is converted through `datetime`. -/
theorem C6_envelope_status_datetime_direct
    (doc : Xml) (es : Xml) (status : String)
    (hes : findRecTop "EnvelopeStatus" doc = some es) :
    ((∀ c ∈ childrenOf es, tagNameIs (pyTitle status) c = false) →
      envelope_status_datetime doc status = .ok none) ∧
    (∀ st, findDirect (pyTitle status) es = some st →
      envelope_status_datetime doc status = (parserDatetime doc (xmlString? st)).map some) := by
  constructor
  · intro hnone
    have hfd : findDirect (pyTitle status) es = none := by
      rw [findDirect]
      refine List.find?_eq_none.mpr (fun c hc => ?_)
      simp [hnone c hc]
    simp only [envelope_status_datetime, hes, hfd]
  · intro st hst
    simp only [envelope_status_datetime, hes, hst]

/-- The doctest document of `envelope_status_datetime`: a `Completed` node
exists nested inside a `RecipientStatus`, but the envelope itself has no
direct `Completed` child. -/
def docC6 : Xml :=
  .elem "DocuSignEnvelopeInformation" (xlist
    [.elem "EnvelopeStatus" (xlist
      [.elem "RecipientStatuses" (xlist
        [.elem "RecipientStatus" (xlist
          [.elem "Completed" (xlist [.text "2014-10-20T01:10:00.12"])])]),
       .elem "Created" (xlist [.text "2014-10-06T01:10:00.12"]),
       .elem "Sent" (xlist [.text "2014-10-06T01:41:09.4845071"])]),
     .elem "TimeZone" (xlist [.text "Pacific Standard Time"]),
     .elem "TimeZoneOffset" (xlist [.text "-7"])])

/-- The `EnvelopeStatus` node of `docC6`. -/
def esC6 : Xml :=
  .elem "EnvelopeStatus" (xlist
    [.elem "RecipientStatuses" (xlist
      [.elem "RecipientStatus" (xlist
        [.elem "Completed" (xlist [.text "2014-10-20T01:10:00.12"])])]),
     .elem "Created" (xlist [.text "2014-10-06T01:10:00.12"]),
     .elem "Sent" (xlist [.text "2014-10-06T01:41:09.4845071"])])

/-- Witness for C6: on `docC6`, `envelope_status_datetime('completed')` is
absent even though a nested `Completed` node exists, while
`envelope_status_datetime('created')` converts the direct `Created`
child. -/
theorem C6_envelope_status_datetime_direct_witness :
    envelope_status_datetime docC6 "completed" = .ok none ∧
    (findRecT "Completed" esC6).isSome = true ∧
    envelope_status_datetime docC6 "created" =
      .ok (some ⟨2014, 10, 6, 1, 10, 0, 120000, some (-25200)⟩) := by
  have h := C6_envelope_status_datetime_direct docC6 esC6 "completed" rfl
  have h2 := C6_envelope_status_datetime_direct docC6 esC6 "created" rfl
  refine ⟨h.1 (by decide), rfl, ?_⟩
  rw [h2.2 (.elem "Created" (xlist [.text "2014-10-06T01:10:00.12"])) (by decide)]
  decide

mutual

/-- Size of an XML tree (for strong induction over the mutual tree). -/
def Xml.size : Xml → Nat
  | .text _ => 1
  | .elem _ cs => cs.size + 1

/-- Size of a child list. -/
def XmlList.size : XmlList → Nat
  | .nil => 1
  | .cons t ts => t.size + ts.size + 1

end

theorem Xml.size_pos (t : Xml) : 1 ≤ t.size := by
  cases t <;> simp [Xml.size]

theorem XmlList.size_positive (ts : XmlList) : 1 ≤ ts.size := by
  cases ts <;> simp [XmlList.size]

theorem hasTag_text (name s2 : String) : ¬ HasTag name (.text s2) := by
  intro h
  cases h

theorem hasTag_elem_iff (name n : String) (cs : XmlList) :
    HasTag name (.elem n cs) ↔ n = name ∨ ∃ t ∈ cs.toList, HasTag name t := by
  constructor
  · intro h
    cases h with
    | here _ => exact Or.inl rfl
    | child _ _ t ht htag => exact Or.inr ⟨t, ht, htag⟩
  · rintro (rfl | ⟨t, ht, htag⟩)
    · exact .here cs
    · exact .child n cs t ht htag

/-- Soundness of the recursive find: a hit means some listed tree contains
the name. -/
theorem findRecL_sound (name : String) :
    ∀ fuel : Nat, ∀ ts : XmlList, ts.size ≤ fuel → ∀ r : Xml,
      findRecL name ts = some r → ∃ t ∈ ts.toList, HasTag name t := by
  intro fuel
  induction fuel with
  | zero =>
    intro ts h
    have := ts.size_positive
    omega
  | succ fl ih =>
    intro ts hts r hfind
    cases ts with
    | nil => simp [findRecL] at hfind
    | cons t rest =>
      have hszr : rest.size ≤ fl := by
        have := t.size_pos
        simp [XmlList.size] at hts
        omega
      cases t with
      | text s2 =>
        rw [findRecL] at hfind
        obtain ⟨t2, ht2, htag⟩ := ih rest hszr r hfind
        exact ⟨t2, by simp [XmlList.toList, ht2], htag⟩
      | elem n2 cs =>
        have hszc : cs.size ≤ fl := by
          have := rest.size_positive
          simp [XmlList.size, Xml.size] at hts
          omega
        rw [findRecL] at hfind
        by_cases hn : n2 = name
        · exact ⟨.elem n2 cs, by simp [XmlList.toList], hn ▸ HasTag.here cs⟩
        · rw [if_neg hn] at hfind
          cases hcs : findRecL name cs with
          | some r2 =>
            obtain ⟨t2, ht2, htag⟩ := ih cs hszc r2 hcs
            exact ⟨.elem n2 cs, by simp [XmlList.toList],
              HasTag.child n2 cs t2 ht2 htag⟩
          | none =>
            rw [hcs] at hfind
            obtain ⟨t2, ht2, htag⟩ := ih rest hszr r hfind
            exact ⟨t2, by simp [XmlList.toList, ht2], htag⟩

/-- Completeness of the recursive find: a miss means no listed tree
contains the name. -/
theorem findRecL_none (name : String) :
    ∀ fuel : Nat, ∀ ts : XmlList, ts.size ≤ fuel →
      findRecL name ts = none → ∀ t ∈ ts.toList, ¬ HasTag name t := by
  intro fuel
  induction fuel with
  | zero =>
    intro ts h
    have := ts.size_positive
    omega
  | succ fl ih =>
    intro ts hts hfind t ht
    cases ts with
    | nil => simp [XmlList.toList] at ht
    | cons t0 rest =>
      have hszr : rest.size ≤ fl := by
        have := t0.size_pos
        simp [XmlList.size] at hts
        omega
      cases t0 with
      | text s2 =>
        rw [findRecL] at hfind
        simp only [XmlList.toList, List.mem_cons] at ht
        rcases ht with rfl | ht
        · exact hasTag_text name s2
        · exact ih rest hszr hfind t ht
      | elem n2 cs =>
        have hszc : cs.size ≤ fl := by
          have := rest.size_positive
          simp [XmlList.size, Xml.size] at hts
          omega
        rw [findRecL] at hfind
        by_cases hn : n2 = name
        · rw [if_pos hn] at hfind
          cases hfind
        · rw [if_neg hn] at hfind
          cases hcs : findRecL name cs with
          | some r2 => rw [hcs] at hfind; cases hfind
          | none =>
            rw [hcs] at hfind
            simp only [XmlList.toList, List.mem_cons] at ht
            rcases ht with rfl | ht
            · rw [hasTag_elem_iff]
              rintro (rfl | ⟨t2, ht2, htag⟩)
              · exact hn rfl
              · exact (ih cs hszc hcs t2 ht2) htag
            · exact ih rest hszr hfind t ht

/-- The soup-level find misses exactly on documents not containing the
tag anywhere (root included). -/
theorem findRecTop_eq_none_iff (name : String) (doc : Xml) :
    findRecTop name doc = none ↔ ¬ HasTag name doc := by
  rw [findRecTop]
  constructor
  · intro h htag
    exact (findRecL_none name _ (.cons doc .nil) le_rfl h doc
      (by simp [XmlList.toList])) htag
  · intro h
    cases hf : findRecL name (.cons doc .nil) with
    | none => rfl
    | some r =>
      obtain ⟨t, ht, htag⟩ := findRecL_sound name _ (.cons doc .nil) le_rfl r hf
      simp only [XmlList.toList, List.mem_singleton] at ht
      exact absurd htag (ht ▸ h)

/-- C5 (amended): a document missing its timezone offset or its envelope
status does make the corresponding operation raise — but the error is the
bare `AttributeError` of the `None` attribute access, which does not name
the absent field (only the empty-status and unknown-status errors are
descriptive `ValueError`s); nothing is silently defaulted:
`envelope_status` succeeds only with a status string inside the known
enumeration, and `timezone_offset` succeeds only when the node is present
with an integer-parsable string. -/
theorem C5_failure_semantics (doc : Xml) :
    (¬ HasTag "TimeZoneOffset" doc → timezone_offset doc = .error .attributeError) ∧
    (¬ HasTag "EnvelopeStatus" doc → envelope_status doc = .error .attributeError) ∧
    (∀ es st s2, findRecTop "EnvelopeStatus" doc = some es →
      findRecT "Status" es = some st → xmlString? st = some s2 →
      s2 ∉ ENVELOPE_STATUS_LIST →
      envelope_status doc = .error (.valueError ("Unknown status " ++ s2))) ∧
    (∀ s2, envelope_status doc = .ok s2 → s2 ∈ ENVELOPE_STATUS_LIST) ∧
    (∀ o, timezone_offset doc = .ok o →
      ∃ t s2, findRecTop "TimeZoneOffset" doc = some t ∧ xmlString? t = some s2 ∧
        pyIntOfString s2 = .ok o) := by
  refine ⟨?_, ?_, ?_, ?_, ?_⟩
  · intro h
    have hn : findRecTop "TimeZoneOffset" doc = none := (findRecTop_eq_none_iff _ _).mpr h
    simp only [timezone_offset, hn]
  · intro h
    have hn : findRecTop "EnvelopeStatus" doc = none := (findRecTop_eq_none_iff _ _).mpr h
    simp only [envelope_status, hn]
  · intro es st s2 hes hst hs2 hnot
    simp only [envelope_status, hes, hst, hs2]
    rw [if_neg hnot]
  · intro s2 hs
    rw [envelope_status] at hs
    cases h1 : findRecTop "EnvelopeStatus" doc with
    | none => simp only [h1] at hs; exact Except.noConfusion hs
    | some es =>
      simp only [h1] at hs
      cases h2 : findRecT "Status" es with
      | none => simp only [h2] at hs; exact Except.noConfusion hs
      | some st =>
        simp only [h2] at hs
        cases h3 : xmlString? st with
        | none => simp only [h3] at hs; exact Except.noConfusion hs
        | some sv =>
          simp only [h3] at hs
          by_cases hin : sv ∈ ENVELOPE_STATUS_LIST
          · rw [if_pos hin] at hs
            injection hs with hs
            subst hs
            exact hin
          · rw [if_neg hin] at hs
            cases hs
  · intro o hs
    rw [timezone_offset] at hs
    cases h1 : findRecTop "TimeZoneOffset" doc with
    | none => simp only [h1] at hs; exact Except.noConfusion hs
    | some t =>
      simp only [h1] at hs
      cases h2 : xmlString? t with
      | none => simp only [h2] at hs; exact Except.noConfusion hs
      | some sv =>
        simp only [h2] at hs
        exact ⟨t, sv, rfl, h2, hs⟩

/-- A callback document with neither a `TimeZoneOffset` nor an
`EnvelopeStatus` node. -/
def docMissingBoth : Xml :=
  .elem "DocuSignEnvelopeInformation" (xlist
    [.elem "TimeZone" (xlist [.text "Pacific Standard Time"])])

/-- C5 counterexample: on a document missing both fields the operations
raise the bare `AttributeError` of the failed `None` attribute access — no
`ValueError` with a message identifying the absent field is raised, so the
errors are not the descriptive field-naming errors the claim requires. -/
theorem C5_counterexample :
    timezone_offset docMissingBoth = .error .attributeError ∧
    envelope_status docMissingBoth = .error .attributeError ∧
    (¬ ∃ m, timezone_offset docMissingBoth = .error (.valueError m)) ∧
    (¬ ∃ m, envelope_status docMissingBoth = .error (.valueError m)) := by
  refine ⟨rfl, rfl, ?_, ?_⟩
  · rintro ⟨m, hm⟩
    rw [show timezone_offset docMissingBoth = .error .attributeError from rfl] at hm
    simp at hm
  · rintro ⟨m, hm⟩
    rw [show envelope_status docMissingBoth = .error .attributeError from rfl] at hm
    simp at hm

/-- A document carrying a status string outside the known enumeration. -/
def docUnknownStatus : Xml :=
  .elem "DocuSignEnvelopeInformation" (xlist
    [.elem "EnvelopeStatus" (xlist [.elem "Status" (xlist [.text "Queued"])]),
     .elem "TimeZoneOffset" (xlist [.text "-7"])])

/-- A document with a known status and a parsable offset. -/
def docValidStatus : Xml :=
  .elem "DocuSignEnvelopeInformation" (xlist
    [.elem "EnvelopeStatus" (xlist [.elem "Status" (xlist [.text "Sent"])]),
     .elem "TimeZoneOffset" (xlist [.text "-7"])])

/-- Witness for C5: concrete documents exercising every conjunct. -/
theorem C5_failure_semantics_witness :
    timezone_offset docMissingBoth = .error .attributeError ∧
    envelope_status docMissingBoth = .error .attributeError ∧
    envelope_status docUnknownStatus = .error (.valueError ("Unknown status " ++ "Queued")) ∧
    ("Sent" ∈ ENVELOPE_STATUS_LIST) ∧
    (∃ t s2, findRecTop "TimeZoneOffset" docValidStatus = some t ∧
      xmlString? t = some s2 ∧ pyIntOfString s2 = .ok (-7)) := by
  have h1 := C5_failure_semantics docMissingBoth
  have h2 := C5_failure_semantics docUnknownStatus
  have h3 := C5_failure_semantics docValidStatus
  refine ⟨h1.1 ((findRecTop_eq_none_iff _ _).mp rfl),
          h1.2.1 ((findRecTop_eq_none_iff _ _).mp rfl), ?_, ?_, ?_⟩
  · exact h2.2.2.1 (.elem "EnvelopeStatus" (xlist [.elem "Status" (xlist [.text "Queued"])]))
      (.elem "Status" (xlist [.text "Queued"])) "Queued" rfl rfl rfl (by decide)
  · exact h3.2.2.2.1 "Sent" rfl
  · exact h3.2.2.2.2 (-7) rfl

/-- The scan of `recipient_status_datetime` factors through the first
matched recipient: once the matching child is identified, only its
status-named direct child decides the result. -/
theorem scanRecipients_eq (doc : Xml) (rid : Option String) (sa : String) :
    ∀ cs : List Xml, scanRecipients doc rid sa cs =
      (match matchedRecipient rid cs with
       | none => .ok none
       | some r =>
         match findDirect sa r with
         | some st => (parserDatetime doc (xmlString? st)).map some
         | none => .ok none) := by
  intro cs
  induction cs with
  | nil => rfl
  | cons t rest ih =>
    cases t with
    | text s2 => simp only [scanRecipients, matchedRecipient]; exact ih
    | elem n2 cs2 =>
      simp only [scanRecipients, matchedRecipient]
      cases hcu : findRecT "ClientUserId" (.elem n2 cs2) with
      | none => exact ih
      | some tag =>
        by_cases hr : rid = xmlString? tag
        · simp [hr]
        · simp only [if_neg hr]
          exact ih

/-- C2 (amended): once the scan matches a recipient node by correlation
id, `recipient_status_datetime(id, 'completed')` reads the matched node's
direct child literally named `Completed` — not the `Signed` child (the
signed-for-completed aliasing of the library lives in the `recipients`
snapshot property, not in this method) — and
`recipient_status_datetime(id, 'signed')` returns absence when the
matched node has no `Signed` direct child. -/
theorem C2_recipient_status_lookup
    (doc : Xml) (rid : Option String) (es rs r : Xml)
    (hes : findRecTop "EnvelopeStatus" doc = some es)
    (hrs : findRecT "RecipientStatuses" es = some rs)
    (hr : matchedRecipient rid (childrenOf rs) = some r) :
    (recipient_status_datetime doc rid "completed" =
      (match findDirect "Completed" r with
       | some st => (parserDatetime doc (xmlString? st)).map some
       | none => .ok none)) ∧
    (findDirect "Signed" r = none →
      recipient_status_datetime doc rid "signed" = .ok none) := by
  have h1 : pyTitle "completed" = "Completed" := by decide
  have h2 : pyTitle "signed" = "Signed" := by decide
  constructor
  · simp only [recipient_status_datetime, hes, hrs, h1, scanRecipients_eq, hr]
  · intro hsig
    simp only [recipient_status_datetime, hes, hrs, h2, scanRecipients_eq, hr, hsig]

/-- The doctest document of `recipient_status_datetime`: recipient `12`
has `Sent`/`Delivered` children (no `Signed`, no `Completed`), recipient
`44` additionally has a `Signed` child. -/
def docC2 : Xml :=
  .elem "DocuSignEnvelopeInformation" (xlist
    [.elem "EnvelopeStatus" (xlist
      [.elem "RecipientStatuses" (xlist
        [.elem "RecipientStatus" (xlist
          [.elem "Sent" (xlist [.text "2014-10-06T01:10:00.12"]),
           .elem "Delivered" (xlist [.text "2014-10-06T01:41:09.4845071"]),
           .elem "ClientUserId" (xlist [.text "12"]),
           .elem "RecipientId" (xlist [.text "bc5989a1-d642-4296-b96f-02ae7e3e2e66"])]),
         .elem "RecipientStatus" (xlist
          [.elem "Sent" (xlist [.text "2014-10-07T01:10:00.12"]),
           .elem "Delivered" (xlist [.text "2014-10-07T01:41:09.4845071"]),
           .elem "Signed" (xlist [.text "2014-10-07T01:41:09.4845071"]),
           .elem "ClientUserId" (xlist [.text "44"]),
           .elem "RecipientId" (xlist [.text "de5989a1-d642-4296-b96f-02ae7e3e2e72"])])])]),
     .elem "TimeZone" (xlist [.text "Pacific Standard Time"]),
     .elem "TimeZoneOffset" (xlist [.text "-7"])])

/-- C2 counterexample: recipient `44` of `docC2` has a `Signed` child
whose converted instant exists — yet
`recipient_status_datetime('44', 'completed')` returns absence, not that
instant: the method does not read the `Signed` child for the `completed`
status. -/
theorem C2_recipient_status_counterexample :
    recipient_status_datetime docC2 (some "44") "completed" = .ok none ∧
    recipient_status_datetime docC2 (some "44") "signed" =
      .ok (some ⟨2014, 10, 7, 1, 41, 9, 484507, some (-25200)⟩) := by
  constructor
  · decide
  · decide

/-- The recipient node of `docC2` with correlation id `12`. -/
def recipient12 : Xml :=
  .elem "RecipientStatus" (xlist
    [.elem "Sent" (xlist [.text "2014-10-06T01:10:00.12"]),
     .elem "Delivered" (xlist [.text "2014-10-06T01:41:09.4845071"]),
     .elem "ClientUserId" (xlist [.text "12"]),
     .elem "RecipientId" (xlist [.text "bc5989a1-d642-4296-b96f-02ae7e3e2e66"])])

/-- The recipient node of `docC2` with correlation id `44`. -/
def recipient44 : Xml :=
  .elem "RecipientStatus" (xlist
    [.elem "Sent" (xlist [.text "2014-10-07T01:10:00.12"]),
     .elem "Delivered" (xlist [.text "2014-10-07T01:41:09.4845071"]),
     .elem "Signed" (xlist [.text "2014-10-07T01:41:09.4845071"]),
     .elem "ClientUserId" (xlist [.text "44"]),
     .elem "RecipientId" (xlist [.text "de5989a1-d642-4296-b96f-02ae7e3e2e72"])])

/-- The `EnvelopeStatus` node of `docC2`. -/
def esC2 : Xml :=
  .elem "EnvelopeStatus" (xlist
    [.elem "RecipientStatuses" (xlist [recipient12, recipient44])])

/-- The `RecipientStatuses` node of `docC2`. -/
def rsC2 : Xml := .elem "RecipientStatuses" (xlist [recipient12, recipient44])

/-- Witness for C2: the scan matches recipient `12` of `docC2`; that node
has neither a `Completed` nor a `Signed` direct child, so both the
`completed` lookup and the `signed` lookup return absence. -/
theorem C2_recipient_status_lookup_witness :
    recipient_status_datetime docC2 (some "12") "completed" = .ok none ∧
    recipient_status_datetime docC2 (some "12") "signed" = .ok none := by
  have h := C2_recipient_status_lookup docC2 (some "12") esC2 rsC2 recipient12
    rfl rfl rfl
  refine ⟨?_, h.2 rfl⟩
  rw [h.1]
  decide

/-- C4: for every callback document on which the three event properties
succeed, `envelope_events` and `recipient_events` are each non-decreasing
in datetime, and `events` is their union — each envelope event tagged
`object: 'envelope'` with an explicit `recipient: None`, each recipient
event tagged `object: 'recipient'` — sorted non-decreasing in datetime
across both kinds. -/
theorem C4_events_union_sorted
    (doc : Xml) (evs eevs revs : List Event)
    (hev : events doc = .ok evs)
    (hee : envelope_events doc = .ok eevs)
    (hre : recipient_events doc = .ok revs) :
    List.Sorted eventLE eevs ∧ List.Sorted eventLE revs ∧ List.Sorted eventLE evs ∧
    evs.Perm (eevs.map tagEnvelope ++ revs.map tagRecipient) ∧
    (∀ e ∈ evs, (e.obj = some "envelope" ∧ e.recipient = some none) ∨
      e.obj = some "recipient") := by
  simp only [events, hee, hre] at hev
  injection hev with hev
  rw [envelope_events] at hee
  rw [recipient_events] at hre
  cases her : envelopeEventsRaw doc with
  | error e2 => rw [her] at hee; cases hee
  | ok eraw =>
    cases hrr : recipientEventsRaw doc with
    | error e2 => rw [hrr] at hre; cases hre
    | ok rraw =>
      rw [her] at hee
      rw [hrr] at hre
      injection hee with hee
      injection hre with hre
      subst hee hre hev
      refine ⟨List.sorted_insertionSort eventLE eraw,
              List.sorted_insertionSort eventLE rraw,
              List.sorted_insertionSort eventLE _,
              List.perm_insertionSort eventLE _, ?_⟩
      intro e he
      have hmem := (List.perm_insertionSort eventLE _).mem_iff.mp he
      rcases List.mem_append.mp hmem with hl | hr2
      · obtain ⟨a, _, rfl⟩ := List.mem_map.mp hl
        exact Or.inl ⟨rfl, rfl⟩
      · obtain ⟨a, _, rfl⟩ := List.mem_map.mp hr2
        exact Or.inr rfl

/-- A small callback document: envelope `Created`/`Sent` plus one
recipient with a `Sent` status, timestamps deliberately interleaved. -/
def docC4 : Xml :=
  .elem "DocuSignEnvelopeInformation" (xlist
    [.elem "EnvelopeStatus" (xlist
      [.elem "RecipientStatuses" (xlist
        [.elem "RecipientStatus" (xlist
          [.elem "Sent" (xlist [.text "2014-10-05T10:00:00.0"]),
           .elem "ClientUserId" (xlist [.text "12"]),
           .elem "RecipientId" (xlist [.text "bc5989a1-d642-4296-b96f-02ae7e3e2e66"])])]),
       .elem "Sent" (xlist [.text "2014-10-06T10:00:00.0"]),
       .elem "Created" (xlist [.text "2014-10-04T10:00:00.0"])]),
     .elem "TimeZone" (xlist [.text "Pacific Standard Time"]),
     .elem "TimeZoneOffset" (xlist [.text "-7"])])

/-- The event list `events` computes on `docC4`. -/
def c4Evs : List Event :=
  match events docC4 with
  | .ok evs => evs
  | .error _ => []

/-- The event list `envelope_events` computes on `docC4`. -/
def c4Eevs : List Event :=
  match envelope_events docC4 with
  | .ok evs => evs
  | .error _ => []

/-- The event list `recipient_events` computes on `docC4`. -/
def c4Revs : List Event :=
  match recipient_events docC4 with
  | .ok evs => evs
  | .error _ => []

/-- Witness for C4 at the concrete document `docC4`. -/
theorem C4_events_union_sorted_witness :
    List.Sorted eventLE c4Eevs ∧ List.Sorted eventLE c4Revs ∧
    List.Sorted eventLE c4Evs ∧
    c4Evs.Perm (c4Eevs.map tagEnvelope ++ c4Revs.map tagRecipient) ∧
    (∀ e ∈ c4Evs, (e.obj = some "envelope" ∧ e.recipient = some none) ∨
      e.obj = some "recipient") :=
  C4_events_union_sorted docC4 c4Evs c4Eevs c4Revs rfl rfl rfl

/-- What `get_recipients` writes into one synced entry: the seven wire
fields are overwritten from the server record (routing order parsed as an
integer, defaulting to 1 when absent) and every other attribute — the
tabs in particular — is preserved from the base object. -/
def OverwrittenFrom (base : SignerM) (r : ServerRec) (s : SignerM) : Prop :=
  (match r.routingOrder with
   | none => s.routingOrder = 1
   | some str => pyIntOfString str = .ok s.routingOrder) ∧
  s.name = some (r.name.getD "") ∧
  s.userId = r.userId ∧
  s.recipientId = (match r.recipientId with | none => .pnone | some s2 => .pstr s2) ∧
  s.clientUserId = r.clientUserId ∧
  s.email = r.email ∧
  s.roleName = r.roleName ∧
  s.tabs = base.tabs ∧
  s.emailBody = base.emailBody ∧
  s.emailSubject = base.emailSubject ∧
  s.supportedLanguage = base.supportedLanguage ∧
  s.accessCode = base.accessCode

/-- The per-record specification of the sync: a record with a truthy
correlation key matching some recipient of the original pool (first match
by string equality) reuses that object as base; any other record gets a
fresh `Signer()`. -/
def SyncedFrom (pool : List SignerM) (r : ServerRec) (s : SignerM) : Prop :=
  match serverKey r with
  | some c =>
    (match pool.find? (keyMatches c) with
     | some loc => OverwrittenFrom loc r s
     | none => OverwrittenFrom freshSigner r s)
  | none => OverwrittenFrom freshSigner r s

theorem applyServer_overwrites (base : SignerM) (r : ServerRec) (s : SignerM)
    (h : applyServer base r = .ok s) : OverwrittenFrom base r s := by
  rw [applyServer] at h
  cases hro : (match r.routingOrder with
               | none => Except.ok (1 : Int)
               | some str => pyIntOfString str) with
  | error e2 => rw [hro] at h; cases h
  | ok ro =>
    rw [hro] at h
    injection h with h
    subst h
    refine ⟨?_, rfl, rfl, rfl, rfl, rfl, rfl, rfl, rfl, rfl, rfl, rfl⟩
    cases hR : r.routingOrder with
    | none =>
      simp only [hR] at hro ⊢
      injection hro with hro
      subst hro
      rfl
    | some str =>
      simp only [hR] at hro ⊢
      exact hro

theorem extractFirst_none_find? (p : SignerM → Bool) :
    ∀ l, extractFirst p l = none → l.find? p = none := by
  intro l
  induction l with
  | nil => intro _; rfl
  | cons x xs ih =>
    intro h
    rw [extractFirst] at h
    cases hp : p x with
    | true => rw [if_pos hp] at h; cases h
    | false =>
      rw [if_neg (by simp [hp])] at h
      cases hx : extractFirst p xs with
      | some pr => obtain ⟨y, ys⟩ := pr; rw [hx] at h; cases h
      | none => simp [List.find?, hp, ih hx]

theorem extractFirst_some_spec (p : SignerM → Bool) :
    ∀ l x rest, extractFirst p l = some (x, rest) →
      l.find? p = some x ∧ rest.Sublist l ∧
      (∀ q : SignerM → Bool, q x = false → rest.find? q = l.find? q) := by
  intro l
  induction l with
  | nil => intro x rest h; cases h
  | cons y ys ih =>
    intro x rest h
    rw [extractFirst] at h
    cases hp : p y with
    | true =>
      rw [if_pos hp] at h
      injection h with h
      rw [Prod.mk.injEq] at h
      obtain ⟨h1, h2⟩ := h
      subst h1
      subst h2
      refine ⟨by simp [List.find?, hp], List.sublist_cons_self _ _, ?_⟩
      intro q hq
      simp [List.find?, hq]
    | false =>
      rw [if_neg (by simp [hp])] at h
      cases hx : extractFirst p ys with
      | none => rw [hx] at h; cases h
      | some pr =>
        obtain ⟨y2, ys2⟩ := pr
        rw [hx] at h
        injection h with h
        rw [Prod.mk.injEq] at h
        obtain ⟨h1, h2⟩ := h
        subst h1
        subst h2
        obtain ⟨hfind, hsub, hpres⟩ := ih y2 ys2 hx
        refine ⟨by simp [List.find?, hp, hfind], hsub.cons₂ y, ?_⟩
        intro q hq
        cases hqy : q y with
        | true => simp [List.find?, hqy]
        | false => simp [List.find?, hqy, hpres q hq]

theorem forall2_imp_mem {R S : ServerRec → SignerM → Prop} :
    ∀ {l1 : List ServerRec} {l2 : List SignerM}, List.Forall₂ R l1 l2 →
      (∀ a ∈ l1, ∀ b, R a b → S a b) → List.Forall₂ S l1 l2 := by
  intro l1 l2 h
  induction h with
  | nil => intro _; exact .nil
  | @cons a b la lb hr _ ih =>
    intro himp
    exact .cons (himp a (by simp) b hr)
      (ih (fun a2 ha2 b2 hb2 => himp a2 (by simp [ha2]) b2 hb2))

theorem syncStep_ok_spec (pool : List SignerM) (r : ServerRec) (pool2 : List SignerM)
    (s : SignerM) (h : syncStep pool r = .ok (pool2, s)) :
    SyncedFrom pool r s ∧ pool2.Sublist pool ∧
    (∀ q : SignerM → Bool,
      (∀ c loc, serverKey r = some c → keyMatches c loc = true → q loc = false) →
      pool2.find? q = pool.find? q) := by
  rw [syncStep] at h
  cases hk : serverKey r with
  | none =>
    simp only [hk] at h
    cases hap : applyServer freshSigner r with
    | error e2 => simp only [hap] at h; exact Except.noConfusion h
    | ok s2 =>
      simp only [hap] at h
      injection h with h
      rw [Prod.mk.injEq] at h
      obtain ⟨h1, h2⟩ := h
      subst h1
      subst h2
      refine ⟨?_, List.Sublist.refl _, fun q _ => rfl⟩
      simp only [SyncedFrom, hk]
      exact applyServer_overwrites _ _ _ hap
  | some c =>
    simp only [hk] at h
    cases hex : extractFirst (keyMatches c) pool with
    | none =>
      simp only [hex] at h
      cases hap : applyServer freshSigner r with
      | error e2 => simp only [hap] at h; exact Except.noConfusion h
      | ok s2 =>
        simp only [hap] at h
        injection h with h
        rw [Prod.mk.injEq] at h
        obtain ⟨h1, h2⟩ := h
        subst h1
        subst h2
        refine ⟨?_, List.Sublist.refl _, fun q _ => rfl⟩
        simp only [SyncedFrom, hk, extractFirst_none_find? _ _ hex]
        exact applyServer_overwrites _ _ _ hap
    | some pr3 =>
      obtain ⟨loc, rest⟩ := pr3
      simp only [hex] at h
      cases hap : applyServer loc r with
      | error e2 => simp only [hap] at h; exact Except.noConfusion h
      | ok s2 =>
        simp only [hap] at h
        injection h with h
        rw [Prod.mk.injEq] at h
        obtain ⟨h1, h2⟩ := h
        subst h1
        subst h2
        obtain ⟨hfind, hsub, hpres⟩ := extractFirst_some_spec _ pool loc rest hex
        refine ⟨?_, hsub, ?_⟩
        · simp only [SyncedFrom, hk, hfind]
          exact applyServer_overwrites _ _ _ hap
        · intro q hq
          exact hpres q (hq c loc rfl (List.find?_some hfind))

/-- The pool only shrinks across the sync loop. -/
theorem syncLoop_sublist :
    ∀ (rs : List ServerRec) (pool p2 ss : List SignerM),
      syncLoop pool rs = .ok (p2, ss) → p2.Sublist pool := by
  intro rs
  induction rs with
  | nil =>
    intro pool p2 ss h
    rw [syncLoop] at h
    injection h with h
    rw [Prod.mk.injEq] at h
    exact h.1 ▸ List.Sublist.refl _
  | cons r rs ih =>
    intro pool p2 ss hrun
    rw [syncLoop] at hrun
    cases hstep : syncStep pool r with
    | error e2 => simp only [hstep] at hrun; exact Except.noConfusion hrun
    | ok pr =>
      obtain ⟨pool2, s⟩ := pr
      simp only [hstep] at hrun
      cases hrest : syncLoop pool2 rs with
      | error e2 => simp only [hrest] at hrun; exact Except.noConfusion hrun
      | ok pr2 =>
        obtain ⟨poolF, ss2⟩ := pr2
        simp only [hrest] at hrun
        injection hrun with hrun
        rw [Prod.mk.injEq] at hrun
        obtain ⟨h1, _⟩ := hrun
        subst h1
        exact (ih pool2 poolF ss2 hrest).trans (syncStep_ok_spec pool r pool2 s hstep).2.1

/-- Pairwise distinctness of the truthy correlation keys of the server
records, in a decidable formulation. -/
def KeysDistinct (rs : List ServerRec) : Prop :=
  rs.Pairwise (fun r1 r2 => serverKey r1 = none ∨ serverKey r1 ≠ serverKey r2)

instance : DecidablePred KeysDistinct := fun rs =>
  List.instDecidablePairwise rs

/-- Characterization of the sync loop against the *original* pool: when
the server records carry pairwise-distinct truthy correlation keys,
each output entry is per-record specified by `SyncedFrom` of the input
pool, one output per record, and the leftover pool is a sublist. -/
theorem syncLoop_char :
    ∀ (rs : List ServerRec) (pool p2 ss : List SignerM),
      KeysDistinct rs →
      syncLoop pool rs = .ok (p2, ss) →
      p2.Sublist pool ∧ ss.length = rs.length ∧
      List.Forall₂ (SyncedFrom pool) rs ss := by
  intro rs
  induction rs with
  | nil =>
    intro pool p2 ss _ h
    rw [syncLoop] at h
    injection h with h
    rw [Prod.mk.injEq] at h
    obtain ⟨h1, h2⟩ := h
    subst h1
    subst h2
    exact ⟨List.Sublist.refl _, rfl, List.Forall₂.nil⟩
  | cons r rs ih =>
    intro pool p2 ss hdist hrun
    rw [syncLoop] at hrun
    cases hstep : syncStep pool r with
    | error e2 => simp only [hstep] at hrun; exact Except.noConfusion hrun
    | ok pr =>
      obtain ⟨pool2, s⟩ := pr
      simp only [hstep] at hrun
      cases hrest : syncLoop pool2 rs with
      | error e2 => simp only [hrest] at hrun; exact Except.noConfusion hrun
      | ok pr2 =>
        obtain ⟨poolF, ss2⟩ := pr2
        simp only [hrest] at hrun
        injection hrun with hrun
        rw [Prod.mk.injEq] at hrun
        obtain ⟨h1, h2⟩ := hrun
        subst h1
        subst h2
        obtain ⟨hhead, htail⟩ := List.pairwise_cons.mp hdist
        obtain ⟨hchar1, hsub1, hpres1⟩ := syncStep_ok_spec pool r pool2 s hstep
        obtain ⟨hsub2, hlen2, hchar2⟩ := ih pool2 poolF ss2 htail hrest
        refine ⟨hsub2.trans hsub1, by simp [hlen2], ?_⟩
        refine List.Forall₂.cons hchar1 ?_
        refine forall2_imp_mem hchar2 ?_
        intro r2 hr2 s2 hs2
        rw [SyncedFrom] at hs2 ⊢
        cases hk2 : serverKey r2 with
        | none => simp only [hk2] at hs2 ⊢; exact hs2
        | some c2 =>
          simp only [hk2] at hs2 ⊢
          have hq : pool2.find? (keyMatches c2) = pool.find? (keyMatches c2) := by
            refine hpres1 (keyMatches c2) ?_
            intro c loc hc hloc
            have hne : serverKey r ≠ serverKey r2 := by
              rcases hhead r2 hr2 with hnone | hne2
              · rw [hc] at hnone; cases hnone
              · exact hne2
            rw [hc, hk2] at hne
            have hcc : c ≠ c2 := fun hcc => hne (by rw [hcc])
            rw [keyMatches] at hloc ⊢
            simp only [decide_eq_true_eq] at hloc
            rw [hloc]
            simp [hcc]
          rw [← hq]
          exact hs2

/-- C3: for every document-mode envelope and every server signer list with
pairwise-distinct truthy correlation keys (DocuSign's recipient lists;
duplicate keys are documented as undefined behaviour), `get_recipients`
produces exactly one entry per server record; a record whose truthy
`clientUserId` string-equals a pooled local recipient's key reuses that
object — preserving its locally set fields such as tabs — and overwrites
routing order (parsed as integer), name, userId, recipientId,
clientUserId, email and roleName from the record, while any other record
yields a fresh `Signer()`; locals without a matching record are absent
(every final entry stems from a server record); the result — sorted
ascending by routing order, ties in input order — replaces the envelope's
recipient list. -/
theorem C3_get_recipients_document_mode
    (env : EnvelopeM) (server : List ServerRec) (env2 : EnvelopeM)
    (hmode : truthyO env.templateId = false)
    (hdist : KeysDistinct server)
    (hrun : get_recipients env server = .ok env2) :
    ∃ synced : List SignerM,
      env2.recipients = synced.insertionSort recipLE ∧
      synced.length = server.length ∧
      List.Forall₂ (SyncedFrom env.recipients) server synced ∧
      env2.recipients.Perm synced ∧
      List.Sorted recipLE env2.recipients ∧
      (∀ a b : SignerM, [a, b].Sublist synced → recipLE a b →
        [a, b].Sublist env2.recipients) := by
  rw [get_recipients, if_neg (by simp [hmode])] at hrun
  cases hs : syncLoop env.recipients server with
  | error e2 => simp only [hs] at hrun; exact Except.noConfusion hrun
  | ok pr =>
    obtain ⟨pool2, synced⟩ := pr
    simp only [hs] at hrun
    injection hrun with hrun
    subst hrun
    obtain ⟨_, hlen, hchar⟩ := syncLoop_char server env.recipients pool2 synced hdist hs
    refine ⟨synced, rfl, hlen, hchar, List.perm_insertionSort recipLE synced,
      List.sorted_insertionSort recipLE synced, ?_⟩
    intro a b hab hle
    exact List.pair_sublist_insertionSort hle hab

/-- The local signer with correlation key `2` (from the repository's
`get_recipients` unit test). -/
def signerK2 : SignerM :=
  { email := some "paul.english@example.com", name := some "Paul English",
    recipientId := .pint 32, clientUserId := some "2", tabs := [],
    emailSubject := some "Here is a subject", emailBody := some "Here is a message",
    supportedLanguage := some "en" }

/-- The local signer with correlation key `3` (vanishes after the sync). -/
def signerK3 : SignerM :=
  { email := some "whatever@example.com", name := some "This One Will Be Removed",
    recipientId := .pint 43, clientUserId := some "3", supportedLanguage := some "en" }

/-- The server response: key `2` (matched) and key `1` (new). -/
def serverC3 : List ServerRec :=
  [{ recipientId := some "32", userId := some "22", clientUserId := some "2",
     roleName := some "", routingOrder := some "12",
     email := some "paul.english@example.com", name := some "Paul English" },
   { recipientId := some "31", userId := some "21", clientUserId := some "1",
     roleName := some "", routingOrder := some "11",
     email := some "jean@example.com", name := some "Jean" }]

/-- Document-mode envelope with local signers `2` and `3`. -/
def envC3 : EnvelopeM := { recipients := [signerK2, signerK3] }

/-- The envelope after `get_recipients`. -/
def envC3out : EnvelopeM :=
  match get_recipients envC3 serverC3 with
  | .ok e2 => e2
  | .error _ => envC3

/-- Witness for C3: the reconciliation scenario of the repository's test —
keys `2` (matched) and `1` (synthesized), key `3` vanished, sorted by
routing order 11 before 12. -/
theorem C3_get_recipients_document_mode_witness :
    (∃ synced : List SignerM,
      envC3out.recipients = synced.insertionSort recipLE ∧
      synced.length = serverC3.length ∧
      List.Forall₂ (SyncedFrom envC3.recipients) serverC3 synced ∧
      envC3out.recipients.Perm synced ∧
      List.Sorted recipLE envC3out.recipients ∧
      (∀ a b : SignerM, [a, b].Sublist synced → recipLE a b →
        [a, b].Sublist envC3out.recipients)) ∧
    envC3out.recipients.map (fun s => s.clientUserId) = [some "1", some "2"] ∧
    envC3out.recipients.map (fun s => s.routingOrder) = [11, 12] :=
  ⟨C3_get_recipients_document_mode envC3 serverC3 envC3out rfl (by decide) rfl,
   rfl, rfl⟩

/-- C10: in template mode `get_recipients` writes the reconciled, stably
sorted recipient list into `recipients` (never into `templateRoles`),
while `templateRoles` — mutated in place by the match deletions — is left
holding exactly the leftover pool, a sublist of the original roles; the
other envelope fields are untouched; under distinct truthy server keys
the written list is the per-record synced result of the roles pool. -/
theorem C10_template_mode_frame
    (env : EnvelopeM) (roles : List SignerM) (server : List ServerRec) (env2 : EnvelopeM)
    (hmode : truthyO env.templateId = true)
    (hroles : env.templateRoles = some roles)
    (hrun : get_recipients env server = .ok env2) :
    ∃ pool2 synced,
      syncLoop roles server = .ok (pool2, synced) ∧
      env2.recipients = synced.insertionSort recipLE ∧
      env2.templateRoles = some pool2 ∧
      pool2.Sublist roles ∧
      env2.templateId = env.templateId ∧
      env2.documents = env.documents ∧
      (KeysDistinct server →
        synced.length = server.length ∧
        List.Forall₂ (SyncedFrom roles) server synced) := by
  rw [get_recipients, if_pos hmode] at hrun
  simp only [hroles] at hrun
  cases hs : syncLoop roles server with
  | error e2 => simp only [hs] at hrun; exact Except.noConfusion hrun
  | ok pr =>
    obtain ⟨pool2, synced⟩ := pr
    simp only [hs] at hrun
    injection hrun with hrun
    subst hrun
    refine ⟨pool2, synced, rfl, rfl, rfl,
      syncLoop_sublist server roles pool2 synced hs, rfl, rfl, ?_⟩
    intro hdist
    obtain ⟨_, hlen, hchar⟩ := syncLoop_char server roles pool2 synced hdist hs
    exact ⟨hlen, hchar⟩

/-- Template-mode envelope with roles keyed `2` and `3`. -/
def envC10 : EnvelopeM :=
  { templateId := some "1111-2222-3333-4444",
    templateRoles := some [signerK2, signerK3] }

/-- The template-mode envelope after `get_recipients`. -/
def envC10out : EnvelopeM :=
  match get_recipients envC10 serverC3 with
  | .ok e2 => e2
  | .error _ => envC10

/-- Witness for C10: after the sync the full sorted result sits in
`recipients` while `templateRoles` holds only the unmatched role `3`. -/
theorem C10_template_mode_frame_witness :
    (∃ pool2 synced,
      syncLoop [signerK2, signerK3] serverC3 = .ok (pool2, synced) ∧
      envC10out.recipients = synced.insertionSort recipLE ∧
      envC10out.templateRoles = some pool2 ∧
      pool2.Sublist [signerK2, signerK3] ∧
      envC10out.templateId = envC10.templateId ∧
      envC10out.documents = envC10.documents ∧
      (KeysDistinct serverC3 →
        synced.length = serverC3.length ∧
        List.Forall₂ (SyncedFrom [signerK2, signerK3]) serverC3 synced)) ∧
    envC10out.templateRoles = some [signerK3] ∧
    envC10out.recipients.map (fun s => s.clientUserId) = [some "1", some "2"] :=
  ⟨C10_template_mode_frame envC10 [signerK2, signerK3] serverC3 envC10out rfl rfl rfl,
   rfl, rfl⟩
